import Mathlib

/-!
# Verification of the Sprintr build-job orchestrator

Shallow embedding of `backend/services/agent_builder.py`,
`backend/services/github_issues.py` and the SSE stream generator of
`backend/main.py`, together with proofs of the specified properties.

External effects (subprocess exit codes, Composio responses, GitHub API
responses, the agent's event stream) are supplied by an `Env` record; the
orchestrator itself is translated line by line from the source.  Job
mutations are emitted as an explicit event list so that the full trace of
intermediate job states is available to the theorems.
-/

namespace Sprintr

/-! ## JSON-like values (Python dict/list/str/int/bool/None) -/
inductive JValue where
  | null : JValue
  | bool : Bool → JValue
  | num : Int → JValue
  | str : String → JValue
  | arr : List JValue → JValue
  | obj : List (String × JValue) → JValue

/-- Python dict key lookup (first binding, keys are unique in a dict). -/
def lookupField : List (String × JValue) → String → Option JValue
  | [], _ => none
  | (k, v) :: rest, key => if k = key then some v else lookupField rest key

/-- `result.get(key)` on a Python object: `None`/absent both map to `none`
for a non-dict the Python code would not reach this (`isinstance` guard). -/
def getKey : JValue → String → Option JValue
  | .obj fields, key => lookupField fields key
  | _, _ => none

/-- Python truthiness of a JSON value (`bool(v)`). -/
def jFalsy : JValue → Bool
  | .null => true
  | .bool b => !b
  | .num n => n == 0
  | .str s => s == ""
  | .arr xs => xs.isEmpty
  | .obj fs => fs.isEmpty

def jTruthyOpt (o : Option JValue) : Bool :=
  match o with
  | none => false
  | some v => !jFalsy v

def optFalsy (o : Option JValue) : Bool :=
  match o with
  | none => true
  | some v => jFalsy v

/-- Approximation of Python `str(v)` used only inside human-readable log /
error messages (no claim depends on the rendering of containers). -/
def jToString : JValue → String
  | .null => "None"
  | .bool true => "True"
  | .bool false => "False"
  | .num n => toString n
  | .str s => s
  | .arr _ => "[...]"
  | .obj _ => "\x7b...\x7d"

/- `_find_in_nested(obj, key)` from `github_issues.py`: recursively search a
nested dict/list for a key.  A dict containing the key returns its value
immediately (a `None` value is indistinguishable from absence for the
caller, hence mapped to `none`); otherwise the values / items are searched
depth-first and the first non-`None` result wins. -/
mutual
def find_in_nested : JValue → String → Option JValue
  | .obj fields, key =>
    match lookupField fields key with
    | some .null => none
    | some v => some v
    | none => findInFields fields key
  | .arr items, key => findInItems items key
  | _, _ => none

def findInFields : List (String × JValue) → String → Option JValue
  | [], _ => none
  | (_, v) :: rest, key =>
    match find_in_nested v key with
    | some r => some r
    | none => findInFields rest key

def findInItems : List JValue → String → Option JValue
  | [], _ => none
  | v :: rest, key =>
    match find_in_nested v key with
    | some r => some r
    | none => findInItems rest key
end

/-! ## Data model: LogEntry / BuildJob (`agent_builder.py` lines 26-47) -/
structure LogEntry where
  timestamp : Nat
  type : String
  message : String
deriving DecidableEq

/-- `BuildJob` dataclass.  `pr_url = JValue.null` models Python `None`
(the field is assigned whatever object `pr_data.get` returned). -/
structure BuildJob where
  build_id : String
  issue_number : Int
  status : String
  logs : List LogEntry
  pr_url : JValue
  error : Option String
  created_at : Nat

/-! ## Job mutations and external-call events

`_run_agent` only ever mutates the job through four primitive operations:
`job.status = ...`, `job.logs.append(...)` (inside `_log`),
`job.pr_url = ...` and `job.error = ...`.  The run is modelled as the list
of these mutations interleaved with the external network calls it makes,
so that every intermediate job state is recoverable. -/
inductive Mut where
  | setStatus : String → Mut
  | appendLog : String → String → Mut
  | setPrUrl : JValue → Mut
  | setError : String → Mut

inductive Ev where
  | jobMut : Mut → Ev
  | call : String → Ev

def mutsOf (evs : List Ev) : List Mut :=
  evs.filterMap fun e => match e with | .jobMut m => some m | .call _ => none

def callsOf (evs : List Ev) : List String :=
  evs.filterMap fun e => match e with | .call c => some c | .jobMut _ => none

/-- Apply one mutation; `tick` stands for the wall-clock instant
(`datetime.now`) at which a `_log` append happens. -/
def applyMut (tick : Nat) (j : BuildJob) : Mut → BuildJob
  | .setStatus s => { j with status := s }
  | .appendLog ty msg => { j with logs := j.logs ++ [⟨tick, ty, msg⟩] }
  | .setPrUrl u => { j with pr_url := u }
  | .setError e => { j with error := some e }

/-- Final job after applying a mutation list. -/
def runJob (j : BuildJob) (tick : Nat) : List Mut → BuildJob
  | [] => j
  | m :: rest => runJob (applyMut tick j m) (tick + 1) rest

/-- All intermediate job states (one snapshot per mutation). -/
def traceJobs (j : BuildJob) (tick : Nat) : List Mut → List BuildJob
  | [] => []
  | m :: rest =>
    let j2 := applyMut tick j m
    j2 :: traceJobs j2 (tick + 1) rest

/-! ## `_log`, helpers for emitted events -/
def mlog (ty msg : String) : Ev := .jobMut (.appendLog ty msg)

def mstat (s : String) : Ev := .jobMut (.setStatus s)

/-- The `except Exception` handler at the end of `_run_agent` (lines
416-419): `job.status = "failed"; job.error = str(exc); _log(job, "error",
f"Build failed: ...")`. -/
def failTail (msg : String) : List Ev :=
  [mstat "failed", .jobMut (.setError msg), mlog "error" ("Build failed: " ++ msg)]

/-! ## Environment: outcomes of all external effects -/
structure WorkspaceEnv where
  /-- `os.path.isdir(os.path.join(workspace, ".git"))` -/
  gitDirExists : Bool
  /-- exit code of `git checkout main` (never inspected by the source) -/
  checkoutCode : Int
  /-- exit code of `git pull --ff-only` (never inspected by the source) -/
  pullCode : Int
  /-- exit code of `git clone` -/
  cloneCode : Int
  /-- stderr of `git clone` -/
  cloneStderr : String

structure StreamDelta where
  dtype : String
  text : String
deriving DecidableEq

structure ContentBlock where
  btype : String
  name : String
  /-- `str(tool_input)` before truncation -/
  input : String
  text : String
deriving DecidableEq

inductive AgentMessage where
  | streamEvent : String → StreamDelta → AgentMessage
  | assistantMessage : List ContentBlock → AgentMessage
  | otherMessage : AgentMessage
deriving DecidableEq

structure ApiEnv where
  /-- outcome of `_get_main_branch_sha_api` (raise_for_status + json) -/
  mainSha : Except String String
  /-- outcome of `_create_branch_api` -/
  createBranch : Except String Unit
  /-- outcome of the existence GET for one path: transport error, or the
  optional blob sha when the file exists (status 200) -/
  checkFile : String → Except String (Option String)
  /-- outcome of the contents PUT (raise_for_status) for one path -/
  putFile : String → Except String Unit
  /-- outcome of `_create_pull_request_api` (raise_for_status + json) -/
  prResp : Except String JValue

structure Env where
  github_owner : String
  github_repo : String
  /-- `COMPOSIO_API_KEY` (defaults to `""`) -/
  composio_key : String
  /-- whether `from composio import Composio` succeeded -/
  composio_import_ok : Bool
  /-- `GITHUB_PAT` (defaults to `""`) -/
  github_pat : String
  ws : WorkspaceEnv
  /-- messages produced by `query(...)` in arrival order -/
  messages : List AgentMessage
  /-- exception raised by the agent stream after the listed messages -/
  agentRaise : Option String
  /-- `git diff --name-only HEAD` output lines -/
  changedFiles : List String
  /-- `git ls-files --others --exclude-standard` output lines -/
  untrackedFiles : List String
  /-- `os.path.isfile` + text read of one relative path: `none` when the
  file is absent or fails to decode as text -/
  readFile : String → Option String
  /-- Composio response to GITHUB_COMMIT_MULTIPLE_FILES -/
  commitResult : JValue
  /-- Composio response to GITHUB_CREATE_A_PULL_REQUEST -/
  prResult : JValue
  api : ApiEnv

/-- `USE_COMPOSIO = bool(COMPOSIO_API_KEY)`, degraded to `False` when the
`composio` package fails to import (lines 14-21). -/
def useComposio (env : Env) : Bool :=
  env.composio_key ≠ "" && env.composio_import_ok

/-- truthiness of `GITHUB_PAT` -/
def patB (env : Env) : Bool := env.github_pat ≠ ""

/-! ## `ensure_workspace` (lines 52-83)

In the existing-workspace branch the source runs `git checkout main` and
`git pull --ff-only` but never inspects their exit codes; only the fresh
`git clone` has its return code checked. -/
def ensure_workspace (env : Env) : Except String String :=
  let workspace := "/tmp/agent-workspace/" ++ env.github_repo
  if env.ws.gitDirExists then
    Except.ok workspace
  else
    if env.ws.cloneCode ≠ 0 then
      Except.error ("git clone failed: " ++ env.ws.cloneStderr)
    else
      Except.ok workspace

/-! ## `_composio_exec` (lines 88-99) -/
def composio_exec (slug : String) (result : JValue) : Except String JValue :=
  let data := match getKey result "data" with
    | some d => d
    | none => result
  if jTruthyOpt (getKey result "error") then
    Except.error ("Composio " ++ slug ++ " failed: " ++
      jToString ((getKey result "error").getD .null))
  else
    Except.ok data

/-! ## `_collect_changed_files` (lines 203-238)

`list(set(changed + untracked))` has unspecified iteration order in
Python; the model deduplicates keeping first occurrences (no claim
depends on the order, only on membership and emptiness). -/
structure Upsert where
  path : String
  content : String
deriving DecidableEq

def collect_changed_files (env : Env) : List Upsert :=
  let all_files := (env.changedFiles ++ env.untrackedFiles).dedup
  all_files.filterMap fun rel =>
    if rel = "" then none
    else (env.readFile rel).map fun c => { path := rel, content := c }

/-- Truthiness of Python `text.strip()`: the text contains at least one
non-whitespace character. -/
def hasNonWs (s : String) : Bool := s.data.any fun c => !c.isWhitespace

def processBlock (acc : List Ev × String) (b : ContentBlock) : List Ev × String :=
  if b.btype = "tool_use" then
    (acc.1 ++ [mlog "tool_use" ("Using tool: " ++ b.name ++ " — " ++ b.input.take 200)], acc.2)
  else if b.btype = "text" then
    let ft := acc.2 ++ b.text
    if hasNonWs b.text then (acc.1 ++ [mlog "agent_text" b.text], ft)
    else (acc.1, ft)
  else acc

def processMessage (acc : List Ev × String) (m : AgentMessage) : List Ev × String :=
  match m with
  | .streamEvent etype delta =>
    if etype = "content_block_delta" then
      if delta.dtype = "text_delta" then
        (acc.1 ++ [mlog "agent_text" delta.text], acc.2 ++ delta.text)
      else acc
    else acc
  | .assistantMessage content => content.foldl processBlock acc
  | .otherMessage => acc

/-! ## `pr_data.get("html_url", default)` (lines 437 and 464)

`.get` on a non-dict raises `AttributeError`; a present-but-`None` value is
returned as `None` — but the source immediately assigns it, so the model
returns the raw `JValue` (with `.null` for Python `None`). -/
def dictGetD (v : JValue) (key : String) (dflt : JValue) : Except String JValue :=
  match v with
  | .obj fields =>
    match lookupField fields key with
    | some x => Except.ok x
    | none => Except.ok dflt
  | _ => Except.error "AttributeError: object has no attribute get"

/-! ## `_push_via_composio` (lines 422-440) -/
def push_via_composio (env : Env) (upserts : List Upsert)
    (branch_name : String) : List Ev × Option String :=
  let e1 := mlog "status" ("Creating branch '" ++ branch_name ++ "' and committing " ++
    toString upserts.length ++ " file(s)...")
  let c1 := Ev.call "composio:GITHUB_COMMIT_MULTIPLE_FILES"
  match composio_exec "GITHUB_COMMIT_MULTIPLE_FILES" env.commitResult with
  | .error err => ([e1, c1], some err)
  | .ok _ =>
    let e2 := mlog "status" "Creating pull request..."
    let c2 := Ev.call "composio:GITHUB_CREATE_A_PULL_REQUEST"
    match composio_exec "GITHUB_CREATE_A_PULL_REQUEST" env.prResult with
    | .error err => ([e1, c1, e2, c2], some err)
    | .ok pr_data =>
      match dictGetD pr_data "html_url"
          (.str ("https://github.com/" ++ env.github_owner ++ "/" ++ env.github_repo ++ "/pulls")) with
      | .error err => ([e1, c1, e2, c2], some err)
      | .ok pr_url =>
        ([e1, c1, e2, c2, .jobMut (.setPrUrl pr_url), mstat "completed",
          mlog "result" ("Pull request created: " ++ jToString pr_url)], none)

/-! ## `_commit_files_api` (lines 155-186) and `_push_via_github_api` (443-467) -/
def commit_files_api (env : Env) : List Upsert → List Ev × Option String
  | [] => ([], none)
  | u :: rest =>
    match env.api.checkFile u.path with
    | .error e => ([Ev.call "api:get_contents"], some e)
    | .ok _ =>
      match env.api.putFile u.path with
      | .error e => ([Ev.call "api:get_contents", Ev.call "api:put_contents"], some e)
      | .ok _ =>
        let r := commit_files_api env rest
        (Ev.call "api:get_contents" :: Ev.call "api:put_contents" :: r.1, r.2)

def push_via_github_api (env : Env) (upserts : List Upsert)
    (branch_name : String) : List Ev × Option String :=
  let e1 := mlog "status" "Getting main branch SHA via GitHub API..."
  let c1 := Ev.call "api:get_ref"
  match env.api.mainSha with
  | .error e => ([e1, c1], some e)
  | .ok _ =>
    let e2 := mlog "status" ("Creating branch '" ++ branch_name ++ "'...")
    let c2 := Ev.call "api:create_ref"
    match env.api.createBranch with
    | .error e => ([e1, c1, e2, c2], some e)
    | .ok _ =>
      let e3 := mlog "status" ("Committing " ++ toString upserts.length ++ " file(s)...")
      let r := commit_files_api env upserts
      match r.2 with
      | some e => ([e1, c1, e2, c2, e3] ++ r.1, some e)
      | none =>
        let e4 := mlog "status" "Creating pull request..."
        let c4 := Ev.call "api:create_pull"
        match env.api.prResp with
        | .error e => ([e1, c1, e2, c2, e3] ++ r.1 ++ [e4, c4], some e)
        | .ok pr_data =>
          match dictGetD pr_data "html_url"
              (.str ("https://github.com/" ++ env.github_owner ++ "/" ++ env.github_repo ++ "/pulls")) with
          | .error e => ([e1, c1, e2, c2, e3] ++ r.1 ++ [e4, c4], some e)
          | .ok pr_url =>
            ([e1, c1, e2, c2, e3] ++ r.1 ++ [e4, c4, .jobMut (.setPrUrl pr_url), mstat "completed",
              mlog "result" ("Pull request created: " ++ jToString pr_url)], none)

/-! ## Publish selection (lines 396-414)

Returned `Option String` is the exception propagating to the outer
handler, if any. -/
def attemptPush (env : Env) (upserts : List Upsert)
    (branch_name : String) : List Ev × Option String :=
  if useComposio env then
    match push_via_composio env upserts branch_name with
    | (evs, none) => (evs, none)
    | (evs, some e) =>
      if patB env then
        let evs2 := evs ++ [mlog "status" ("Composio failed (" ++ e ++ "), trying GitHub API fallback...")]
        let r := push_via_github_api env upserts branch_name
        (evs2 ++ r.1, r.2)
      else
        (evs, some ("Composio failed: " ++ e ++ ". Set GITHUB_PAT in .env as a fallback."))
  else if patB env then
    push_via_github_api env upserts branch_name
  else
    ([], some "No GitHub credentials available. Configure Composio GitHub integration or set GITHUB_PAT in .env.")

/-! ## `_run_agent` (lines 312-419) -/
def run_agent (env : Env) (issue_number : Int) (issue_title : String) : List Ev :=
  let evs0 := [mstat "cloning", mlog "status" "Preparing workspace..."]
  match ensure_workspace env with
  | .error e => evs0 ++ failTail e
  | .ok workspace =>
    let streamRes := env.messages.foldl processMessage ([], "")
    let evs1 := evs0 ++ [mlog "status" ("Workspace ready at " ++ workspace),
      mstat "running", mlog "status" "Agent started — implementing issue..."] ++ streamRes.1
    match env.agentRaise with
    | some e => evs1 ++ failTail e
    | none =>
      let evs2 := evs1 ++ [mlog "status" "Agent finished. Collecting changed files..."]
      let upserts := collect_changed_files env
      if upserts.isEmpty then
        evs2 ++ [mstat "failed", .jobMut (.setError "Agent made no file changes"),
          mlog "error" "No file changes detected — nothing to push."]
      else
        let evs3 := evs2 ++ [mlog "status" ("Found " ++ toString upserts.length ++
          " changed file(s): " ++ String.intercalate ", " (upserts.map (·.path))), mstat "pushing"]
        let branch_name := "ai/issue-" ++ toString issue_number
        let full_text := streamRes.2
        let _commit_message := "Implement #" ++ toString issue_number ++ ": " ++ issue_title
        let _pr_title := "AI: " ++ issue_title
        let _pr_body := "Closes #" ++ toString issue_number ++
          "\n\nAutomated implementation by Claude Agent.\n\n## Summary\n" ++
          (if full_text.length > 500 then full_text.drop (full_text.length - 500) else full_text)
        match attemptPush env upserts branch_name with
        | (pevs, none) => evs3 ++ pevs
        | (pevs, some e) => evs3 ++ pevs ++ failTail e

/-! ## `start_build` / `get_job` (lines 283-309)

`start_build` allocates the job, inserts it into the `_jobs` dict, then
schedules `_run_agent` as a background task (which cannot run before the
synchronous function returns) and returns the job.  The dict is modelled
as an association list with newest binding first. -/
def get_job (jobs : List (String × BuildJob)) (build_id : String) : Option BuildJob :=
  (jobs.find? fun p => p.1 == build_id).map (·.2)

def start_build (jobs : List (String × BuildJob)) (build_id : String)
    (issue_number : Int) (now : Nat) : BuildJob × List (String × BuildJob) :=
  let job : BuildJob := {
    build_id := build_id
    issue_number := issue_number
    status := "queued"
    logs := []
    pr_url := .null
    error := none
    created_at := now }
  (job, (build_id, job) :: jobs)

/-! ## `_create_via_composio` (`github_issues.py` lines 37-67) -/
def create_via_composio (result : JValue) : Except String (JValue × JValue) :=
  match getKey result "successful" with
  | some (.bool false) =>
    Except.error ("Composio issue creation failed: " ++
      jToString ((getKey result "error").getD (.str "Unknown Composio error")))
  | _ =>
    let html_url := find_in_nested result "html_url"
    let number := find_in_nested result "number"
    if optFalsy html_url || optFalsy number then
      Except.error ("Composio response missing html_url or number. Got html_url=" ++
        jToString (html_url.getD .null) ++ ", number=" ++ jToString (number.getD .null) ++
        ". Raw: " ++ jToString result)
    else
      Except.ok (html_url.getD .null, number.getD .null)

/-! ## SSE stream generator (`main.py` lines 154-175)

One list element per poll cycle: the snapshot of the job the generator
observes during that cycle (single writer, so each cycle sees a
consistent snapshot).  The per-stream cursor `sent` starts at 0. -/
inductive SSE where
  | log : LogEntry → SSE
  | done : String → JValue → Option String → SSE

def isTerminal (s : String) : Bool := s == "completed" || s == "failed"

def event_generator : List BuildJob → Nat → List SSE
  | [], _ => []
  | j :: rest, sent =>
    let newEvents := (j.logs.drop sent).map SSE.log
    if isTerminal j.status then
      newEvents ++ [SSE.done j.status j.pr_url j.error]
    else
      newEvents ++ event_generator rest j.logs.length

def logEvents (l : List SSE) : List LogEntry :=
  l.filterMap fun e => match e with | .log x => some x | .done _ _ _ => none

/-- Rank in the total order `queued < cloning < running < pushing <
completed = failed` (terminal states are incomparable peaks; their
persistence is stated separately). -/
def statusRank : String → Nat
  | "queued" => 0
  | "cloning" => 1
  | "running" => 2
  | "pushing" => 3
  | "completed" => 4
  | "failed" => 4
  | _ => 5

def terminalS (s : String) : Bool := s == "completed" || s == "failed"

/-- One observed status may follow another: the rank never decreases and a
terminal status never changes. -/
def statusLe (a b : String) : Prop :=
  statusRank a ≤ statusRank b ∧ (terminalS a = true → b = a)

/-- Boolean version of `statusLe`. -/
def statusStepB (a b : String) : Bool :=
  Nat.ble (statusRank a) (statusRank b) && (!terminalS a || a == b)

/-- The status sequence induced by a mutation list is admissible starting
from `cur`. -/
def statusSeqOk : String → List Mut → Bool
  | _, [] => true
  | cur, .setStatus s :: rest => statusStepB cur s && statusSeqOk s rest
  | cur, .appendLog _ _ :: rest => statusSeqOk cur rest
  | cur, .setPrUrl _ :: rest => statusSeqOk cur rest
  | cur, .setError _ :: rest => statusSeqOk cur rest

/-- Status after applying a mutation list. -/
def statusAfter : String → List Mut → String
  | cur, [] => cur
  | _, .setStatus s :: rest => statusAfter s rest
  | cur, .appendLog _ _ :: rest => statusAfter cur rest
  | cur, .setPrUrl _ :: rest => statusAfter cur rest
  | cur, .setError _ :: rest => statusAfter cur rest

/-- Is there a `status`-kind log append before the next `setStatus`? -/
def statusLogBefore : List Mut → Bool
  | [] => false
  | .appendLog ty _ :: rest => ty == "status" || statusLogBefore rest
  | .setStatus _ :: _ => false
  | .setPrUrl _ :: rest => statusLogBefore rest
  | .setError _ :: rest => statusLogBefore rest

/-- Every transition into `target` is followed by a `status`-kind log entry
before the next transition. -/
def loggedFor (target : String) : List Mut → Bool
  | [] => true
  | .setStatus s :: rest =>
    (if s = target then statusLogBefore rest else true) && loggedFor target rest
  | .appendLog _ _ :: rest => loggedFor target rest
  | .setPrUrl _ :: rest => loggedFor target rest
  | .setError _ :: rest => loggedFor target rest

def evOnlyLog (e : Ev) : Bool :=
  match e with | .jobMut (.appendLog _ _) => true | _ => false

def evOnlyCall (e : Ev) : Bool :=
  match e with | .call _ => true | _ => false

def noSetPrUrl (l : List Mut) : Bool :=
  l.all fun m => match m with | .setPrUrl _ => false | _ => true

/-- Logs only ever grow: earlier logs are a prefix of later logs. -/
def logsExtend (a b : BuildJob) : Prop := ∃ t, a.logs ++ t = b.logs

/-! ## Transparency of log-only mutation segments -/
def mutOnlyLog (m : Mut) : Bool :=
  match m with | .appendLog _ _ => true | _ => false

/-- Error field after applying a mutation list. -/
def errorAfter : Option String → List Mut → Option String
  | acc, [] => acc
  | _, .setError e :: rest => errorAfter (some e) rest
  | acc, .setStatus _ :: rest => errorAfter acc rest
  | acc, .appendLog _ _ :: rest => errorAfter acc rest
  | acc, .setPrUrl _ :: rest => errorAfter acc rest

/-- Kind of the last appended log entry (or the inherited one). -/
def lastLogTy : Option String → List Mut → Option String
  | acc, [] => acc
  | _, .appendLog ty _ :: rest => lastLogTy (some ty) rest
  | acc, .setStatus _ :: rest => lastLogTy acc rest
  | acc, .setPrUrl _ :: rest => lastLogTy acc rest
  | acc, .setError _ :: rest => lastLogTy acc rest

def noWorkingSet (l : List Mut) : Bool :=
  l.all fun m => match m with | .setStatus s => terminalS s | _ => true

/-- First mutation is a `status`-kind log append. -/
def firstIsStatusLog : List Mut → Bool
  | .appendLog ty _ :: _ => ty == "status"
  | _ => false

/-- Pull-request URL field after applying a mutation list. -/
def prUrlAfter : JValue → List Mut → JValue
  | acc, [] => acc
  | _, .setPrUrl u :: rest => prUrlAfter u rest
  | acc, .setStatus _ :: rest => prUrlAfter acc rest
  | acc, .appendLog _ _ :: rest => prUrlAfter acc rest
  | acc, .setError _ :: rest => prUrlAfter acc rest

/-- Count of transitions into a given status. -/
def countSetStatus (s : String) : List Mut → Nat
  | [] => 0
  | .setStatus s2 :: rest => (if s2 = s then 1 else 0) + countSetStatus s rest
  | .appendLog _ _ :: rest => countSetStatus s rest
  | .setPrUrl _ :: rest => countSetStatus s rest
  | .setError _ :: rest => countSetStatus s rest

/-- Concrete witness environment: existing workspace, empty agent stream,
no changed files, no publish credentials. -/
def envW : Env := {
  github_owner := "o"
  github_repo := "r"
  composio_key := ""
  composio_import_ok := false
  github_pat := ""
  ws := { gitDirExists := true, checkoutCode := 0, pullCode := 0, cloneCode := 0, cloneStderr := "" }
  messages := []
  agentRaise := none
  changedFiles := []
  untrackedFiles := []
  readFile := fun _ => none
  commitResult := .null
  prResult := .null
  api := { mainSha := .error "x", createBranch := .error "x",
           checkFile := fun _ => .error "x", putFile := fun _ => .error "x",
           prResp := .error "x" } }

/-- Concrete witness job as produced by `start_build`. -/
def jobW : BuildJob := {
  build_id := "b"
  issue_number := 1
  status := "queued"
  logs := []
  pr_url := .null
  error := none
  created_at := 0 }

/-- C6 counterexample job: two log entries exist before the reader attaches. -/
def jobC6 : BuildJob := {
  build_id := "b"
  issue_number := 1
  status := "completed"
  logs := [⟨0, "status", "one"⟩, ⟨1, "status", "two"⟩]
  pr_url := .null
  error := none
  created_at := 0 }

/-- C7 counterexample environment: existing workspace whose fast-forward
pull exits non-zero. -/
def envC7 : Env := { envW with
  ws := { gitDirExists := true, checkoutCode := 1, pullCode := 1, cloneCode := 0,
          cloneStderr := "" } }

/-- Modelled from the spec (amended): the log entries the spec expects for
one content block — every tool invocation, and every text fragment whose
text is not pure whitespace. -/
def specBlockEvents (b : ContentBlock) : List Ev :=
  if b.btype = "tool_use" then
    [mlog "tool_use" ("Using tool: " ++ b.name ++ " — " ++ b.input.take 200)]
  else if b.btype = "text" then
    if hasNonWs b.text then [mlog "agent_text" b.text] else []
  else []

/-- Modelled from the spec (amended): the log entries expected for one
message of the agent stream, in arrival order. -/
def specMessageEvents (m : AgentMessage) : List Ev :=
  match m with
  | .streamEvent etype delta =>
    if etype = "content_block_delta" then
      if delta.dtype = "text_delta" then [mlog "agent_text" delta.text] else []
    else []
  | .assistantMessage content => content.flatMap specBlockEvents
  | .otherMessage => []

/-- C8 counterexample messages: one assistant message carrying a single
whitespace-only text fragment. -/
def msgsC8 : List AgentMessage := [.assistantMessage [⟨"text", "", "", " "⟩]]

/-- C5 counterexample environment: Composio configured, agent changed one
file, the commit call succeeds, and the pull-request call succeeds with a
payload that contains `number` but no `html_url` anywhere. -/
def envC5 : Env := { envW with
  composio_key := "k"
  composio_import_ok := true
  changedFiles := ["a.txt"]
  readFile := fun p => if p = "a.txt" then some "x" else none
  commitResult := .obj [("data", .obj [])]
  prResult := .obj [("data", .obj [("number", .num 5)])] }

/-- Environment in which the job reaches the publish step with no publish
credential configured (one changed file, no Composio, no PAT). -/
def envP : Env := { envW with
  changedFiles := ["a.txt"]
  readFile := fun p => if p = "a.txt" then some "x" else none }

theorem statusStepB_sound {a b : String} (h : statusStepB a b = true) : statusLe a b := by
  unfold statusStepB at h
  rw [Bool.and_eq_true, Bool.or_eq_true] at h
  obtain ⟨h1, h2⟩ := h
  refine ⟨Nat.le_of_ble_eq_true h1, fun ht => ?_⟩
  rcases h2 with h2 | h2
  · rw [ht] at h2; exact absurd h2 (by simp)
  · exact (eq_of_beq h2).symm

theorem statusLe_refl (a : String) : statusLe a a := ⟨Nat.le_refl _, fun _ => rfl⟩

theorem statusLe_trans {a b c : String} (h1 : statusLe a b) (h2 : statusLe b c) :
    statusLe a c := by
  refine ⟨Nat.le_trans h1.1 h2.1, fun ht => ?_⟩
  have hb : b = a := h1.2 ht
  have hc : c = b := h2.2 (by rw [hb]; exact ht)
  rw [hc, hb]

/-! ## Generic lemmas about muts, calls and traces -/
theorem mutsOf_nil : mutsOf [] = [] := rfl

theorem mutsOf_cons_mut (m : Mut) (es : List Ev) :
    mutsOf (.jobMut m :: es) = m :: mutsOf es := rfl

theorem mutsOf_cons_call (c : String) (es : List Ev) :
    mutsOf (.call c :: es) = mutsOf es := rfl

theorem mutsOf_append (a b : List Ev) : mutsOf (a ++ b) = mutsOf a ++ mutsOf b := by
  simp [mutsOf, List.filterMap_append]

theorem callsOf_nil : callsOf [] = [] := rfl

theorem callsOf_cons_mut (m : Mut) (es : List Ev) :
    callsOf (.jobMut m :: es) = callsOf es := rfl

theorem callsOf_cons_call (c : String) (es : List Ev) :
    callsOf (.call c :: es) = c :: callsOf es := rfl

theorem callsOf_append (a b : List Ev) : callsOf (a ++ b) = callsOf a ++ callsOf b := by
  simp [callsOf, List.filterMap_append]

theorem runJob_append (j : BuildJob) (t : Nat) (l1 l2 : List Mut) :
    runJob j t (l1 ++ l2) = runJob (runJob j t l1) (t + l1.length) l2 := by
  induction l1 generalizing j t with
  | nil => simp [runJob]
  | cons m rest ih =>
    simp only [List.cons_append, runJob, List.length_cons]
    have hconv : rest.append l2 = rest ++ l2 := rfl
    rw [hconv, ih]
    have harith : t + (rest.length + 1) = t + 1 + rest.length := by omega
    rw [harith]

theorem pairwise_cons_trans {α : Type} (R : α → α → Prop)
    (htrans : ∀ a b c, R a b → R b c → R a c)
    {a b : α} {l : List α} (hab : R a b)
    (h : List.Pairwise R (b :: l)) : List.Pairwise R (a :: b :: l) := by
  have hb := List.pairwise_cons.mp h
  refine List.pairwise_cons.mpr ⟨fun x hx => ?_, h⟩
  rcases List.mem_cons.mp hx with rfl | hx
  · exact hab
  · exact htrans _ _ _ hab (hb.1 x hx)

theorem applyMut_status_setStatus (t : Nat) (j : BuildJob) (s : String) :
    (applyMut t j (.setStatus s)).status = s := rfl

/-- Every trace with an admissible status sequence is pairwise
status-monotone. -/
theorem trace_pairwise_statusLe :
    ∀ (muts : List Mut) (j : BuildJob) (t : Nat),
    statusSeqOk j.status muts = true →
    List.Pairwise (fun a b : BuildJob => statusLe a.status b.status)
      (j :: traceJobs j t muts) := by
  intro muts
  induction muts with
  | nil => intro j t _; simp [traceJobs]
  | cons m rest ih =>
    intro j t h
    cases m with
    | setStatus s =>
      simp only [statusSeqOk, Bool.and_eq_true] at h
      have hp := ih (applyMut t j (.setStatus s)) (t + 1)
        (by rw [applyMut_status_setStatus]; exact h.2)
      exact pairwise_cons_trans (fun a b : BuildJob => statusLe a.status b.status)
        (fun _ _ _ => statusLe_trans) (statusStepB_sound h.1) hp
    | appendLog ty msg =>
      simp only [statusSeqOk] at h
      have hp := ih (applyMut t j (.appendLog ty msg)) (t + 1) h
      exact pairwise_cons_trans (fun a b : BuildJob => statusLe a.status b.status)
        (fun _ _ _ => statusLe_trans) (statusLe_refl _) hp
    | setPrUrl u =>
      simp only [statusSeqOk] at h
      have hp := ih (applyMut t j (.setPrUrl u)) (t + 1) h
      exact pairwise_cons_trans (fun a b : BuildJob => statusLe a.status b.status)
        (fun _ _ _ => statusLe_trans) (statusLe_refl _) hp
    | setError e =>
      simp only [statusSeqOk] at h
      have hp := ih (applyMut t j (.setError e)) (t + 1) h
      exact pairwise_cons_trans (fun a b : BuildJob => statusLe a.status b.status)
        (fun _ _ _ => statusLe_trans) (statusLe_refl _) hp

theorem logsExtend_refl (a : BuildJob) : logsExtend a a := ⟨[], by simp⟩

theorem logsExtend_trans {a b c : BuildJob} (h1 : logsExtend a b) (h2 : logsExtend b c) :
    logsExtend a c := by
  obtain ⟨t1, h1⟩ := h1
  obtain ⟨t2, h2⟩ := h2
  exact ⟨t1 ++ t2, by rw [← List.append_assoc, h1, h2]⟩

theorem logsExtend_applyMut (t : Nat) (j : BuildJob) (m : Mut) :
    logsExtend j (applyMut t j m) := by
  cases m with
  | appendLog ty msg => exact ⟨[⟨t, ty, msg⟩], rfl⟩
  | setStatus s => exact ⟨[], by simp [applyMut]⟩
  | setPrUrl u => exact ⟨[], by simp [applyMut]⟩
  | setError e => exact ⟨[], by simp [applyMut]⟩

theorem trace_pairwise_logsExtend :
    ∀ (muts : List Mut) (j : BuildJob) (t : Nat),
    List.Pairwise logsExtend (j :: traceJobs j t muts) := by
  intro muts
  induction muts with
  | nil => intro j t; simp [traceJobs]
  | cons m rest ih =>
    intro j t
    exact pairwise_cons_trans logsExtend (fun _ _ _ => logsExtend_trans)
      (logsExtend_applyMut t j m) (ih (applyMut t j m) (t + 1))

theorem statusSeqOk_append_logsM :
    ∀ (l : List Mut), l.all mutOnlyLog = true →
    ∀ (cur : String) (rest : List Mut),
    statusSeqOk cur (l ++ rest) = statusSeqOk cur rest := by
  intro l
  induction l with
  | nil => intro _ cur rest; simp
  | cons m ms ih =>
    intro hl cur rest
    rw [List.all_cons, Bool.and_eq_true] at hl
    cases m with
    | appendLog ty msg =>
      simp only [List.cons_append, statusSeqOk]
      exact ih hl.2 cur rest
    | setStatus s => simp [mutOnlyLog] at hl
    | setPrUrl u => simp [mutOnlyLog] at hl
    | setError e => simp [mutOnlyLog] at hl

theorem statusAfter_append_logsM :
    ∀ (l : List Mut), l.all mutOnlyLog = true →
    ∀ (cur : String) (rest : List Mut),
    statusAfter cur (l ++ rest) = statusAfter cur rest := by
  intro l
  induction l with
  | nil => intro _ cur rest; simp
  | cons m ms ih =>
    intro hl cur rest
    rw [List.all_cons, Bool.and_eq_true] at hl
    cases m with
    | appendLog ty msg =>
      simp only [List.cons_append, statusAfter]
      exact ih hl.2 cur rest
    | setStatus s => simp [mutOnlyLog] at hl
    | setPrUrl u => simp [mutOnlyLog] at hl
    | setError e => simp [mutOnlyLog] at hl

theorem loggedFor_append_logsM :
    ∀ (l : List Mut), l.all mutOnlyLog = true →
    ∀ (target : String) (rest : List Mut),
    loggedFor target (l ++ rest) = loggedFor target rest := by
  intro l
  induction l with
  | nil => intro _ target rest; simp
  | cons m ms ih =>
    intro hl target rest
    rw [List.all_cons, Bool.and_eq_true] at hl
    cases m with
    | appendLog ty msg =>
      simp only [List.cons_append, loggedFor]
      exact ih hl.2 target rest
    | setStatus s => simp [mutOnlyLog] at hl
    | setPrUrl u => simp [mutOnlyLog] at hl
    | setError e => simp [mutOnlyLog] at hl

theorem noSetPrUrl_nil : noSetPrUrl [] = true := rfl

theorem noSetPrUrl_append (a b : List Mut) :
    noSetPrUrl (a ++ b) = (noSetPrUrl a && noSetPrUrl b) := List.all_append

theorem noSetPrUrl_cons_log (ty msg : String) (rest : List Mut) :
    noSetPrUrl (.appendLog ty msg :: rest) = noSetPrUrl rest := by simp [noSetPrUrl]

theorem noSetPrUrl_cons_status (s : String) (rest : List Mut) :
    noSetPrUrl (.setStatus s :: rest) = noSetPrUrl rest := by simp [noSetPrUrl]

theorem noSetPrUrl_cons_err (e : String) (rest : List Mut) :
    noSetPrUrl (.setError e :: rest) = noSetPrUrl rest := by simp [noSetPrUrl]

theorem noSetPrUrl_of_logsM :
    ∀ (l : List Mut), l.all mutOnlyLog = true → noSetPrUrl l = true := by
  intro l
  induction l with
  | nil => intro _; rfl
  | cons m ms ih =>
    intro hl
    rw [List.all_cons, Bool.and_eq_true] at hl
    cases m with
    | appendLog ty msg => rw [noSetPrUrl_cons_log]; exact ih hl.2
    | setStatus s => simp [mutOnlyLog] at hl
    | setPrUrl u => simp [mutOnlyLog] at hl
    | setError e => simp [mutOnlyLog] at hl

theorem runJob_prUrl_noSet :
    ∀ (l : List Mut), noSetPrUrl l = true →
    ∀ (j : BuildJob) (t : Nat), (runJob j t l).pr_url = j.pr_url := by
  intro l
  induction l with
  | nil => intro _ j t; rfl
  | cons m ms ih =>
    intro hl j t
    rw [noSetPrUrl] at hl
    rw [List.all_cons, Bool.and_eq_true] at hl
    cases m with
    | appendLog ty msg => exact ih hl.2 _ _
    | setStatus s => exact ih hl.2 _ _
    | setPrUrl u => simp at hl
    | setError e => exact ih hl.2 _ _

/-! ## The agent stream only appends log entries -/
theorem processBlock_onlyLog (acc : List Ev × String) (b : ContentBlock)
    (h : acc.1.all evOnlyLog = true) : (processBlock acc b).1.all evOnlyLog = true := by
  unfold processBlock
  split_ifs <;> simp_all [List.all_append, evOnlyLog, mlog]

theorem foldl_processBlock_onlyLog :
    ∀ (bs : List ContentBlock) (acc : List Ev × String),
    acc.1.all evOnlyLog = true → ((bs.foldl processBlock acc).1.all evOnlyLog) = true := by
  intro bs
  induction bs with
  | nil => intro acc h; simpa using h
  | cons b rest ih => intro acc h; exact ih _ (processBlock_onlyLog acc b h)

theorem processMessage_onlyLog (acc : List Ev × String) (m : AgentMessage)
    (h : acc.1.all evOnlyLog = true) : (processMessage acc m).1.all evOnlyLog = true := by
  cases m with
  | streamEvent etype delta =>
    simp only [processMessage]
    split_ifs <;> simp_all [List.all_append, evOnlyLog, mlog]
  | assistantMessage content => exact foldl_processBlock_onlyLog content acc h
  | otherMessage => simpa using h

theorem foldl_processMessage_onlyLog :
    ∀ (msgs : List AgentMessage) (acc : List Ev × String),
    acc.1.all evOnlyLog = true → ((msgs.foldl processMessage acc).1.all evOnlyLog) = true := by
  intro msgs
  induction msgs with
  | nil => intro acc h; simpa using h
  | cons m rest ih => intro acc h; exact ih _ (processMessage_onlyLog acc m h)

theorem mutsOf_all_log_of_onlyLog :
    ∀ (l : List Ev), l.all evOnlyLog = true → (mutsOf l).all mutOnlyLog = true := by
  intro l
  induction l with
  | nil => intro _; rfl
  | cons e es ih =>
    intro h
    rw [List.all_cons, Bool.and_eq_true] at h
    cases e with
    | call c => simp [evOnlyLog] at h
    | jobMut m =>
      cases m with
      | appendLog ty msg =>
        rw [mutsOf_cons_mut, List.all_cons, Bool.and_eq_true]
        exact ⟨rfl, ih h.2⟩
      | setStatus s => simp [evOnlyLog] at h
      | setPrUrl u => simp [evOnlyLog] at h
      | setError e2 => simp [evOnlyLog] at h

theorem callsOf_of_onlyLog :
    ∀ (l : List Ev), l.all evOnlyLog = true → callsOf l = [] := by
  intro l
  induction l with
  | nil => intro _; rfl
  | cons e es ih =>
    intro h
    rw [List.all_cons, Bool.and_eq_true] at h
    cases e with
    | call c => simp [evOnlyLog] at h
    | jobMut m => rw [callsOf_cons_mut]; exact ih h.2

theorem streamMuts_all (msgs : List AgentMessage) :
    (mutsOf (msgs.foldl processMessage ([], "")).1).all mutOnlyLog = true :=
  mutsOf_all_log_of_onlyLog _ (foldl_processMessage_onlyLog msgs ([], "") rfl)

theorem statusSeqOk_stream (msgs : List AgentMessage) (cur : String) (rest : List Mut) :
    statusSeqOk cur (mutsOf (msgs.foldl processMessage ([], "")).1 ++ rest) =
    statusSeqOk cur rest :=
  statusSeqOk_append_logsM _ (streamMuts_all msgs) cur rest

theorem statusAfter_stream (msgs : List AgentMessage) (cur : String) (rest : List Mut) :
    statusAfter cur (mutsOf (msgs.foldl processMessage ([], "")).1 ++ rest) =
    statusAfter cur rest :=
  statusAfter_append_logsM _ (streamMuts_all msgs) cur rest

theorem loggedFor_stream (msgs : List AgentMessage) (target : String) (rest : List Mut) :
    loggedFor target (mutsOf (msgs.foldl processMessage ([], "")).1 ++ rest) =
    loggedFor target rest :=
  loggedFor_append_logsM _ (streamMuts_all msgs) target rest

theorem callsOf_stream (msgs : List AgentMessage) :
    callsOf (msgs.foldl processMessage ([], "")).1 = [] :=
  callsOf_of_onlyLog _ (foldl_processMessage_onlyLog msgs ([], "") rfl)

theorem noSetPrUrl_stream (msgs : List AgentMessage) :
    noSetPrUrl (mutsOf (msgs.foldl processMessage ([], "")).1) = true :=
  noSetPrUrl_of_logsM _ (streamMuts_all msgs)

/-! ## The per-file commit loop performs calls only, no job mutations -/
theorem commit_files_api_mutsOf (env : Env) :
    ∀ us, mutsOf (commit_files_api env us).1 = [] := by
  intro us
  induction us with
  | nil => rfl
  | cons u rest ih =>
    unfold commit_files_api
    cases env.api.checkFile u.path with
    | error e => rfl
    | ok s =>
      cases env.api.putFile u.path with
      | error e => rfl
      | ok _ => simpa only [mutsOf_cons_call] using ih

theorem commit_files_api_not_mem (env : Env) (c : String)
    (h1 : c ≠ "api:get_contents") (h2 : c ≠ "api:put_contents") :
    ∀ us, c ∉ callsOf (commit_files_api env us).1 := by
  intro us
  induction us with
  | nil => simp [commit_files_api, callsOf_nil]
  | cons u rest ih =>
    unfold commit_files_api
    cases env.api.checkFile u.path with
    | error e => simp [callsOf_cons_call, callsOf_nil, h1]
    | ok s =>
      cases env.api.putFile u.path with
      | error e => simp [callsOf_cons_call, callsOf_nil, h1, h2]
      | ok _ =>
        simp only [callsOf_cons_call, List.mem_cons]
        push_neg
        exact ⟨h1, h2, ih⟩

theorem runJob_status (l : List Mut) :
    ∀ (j : BuildJob) (t : Nat), (runJob j t l).status = statusAfter j.status l := by
  induction l with
  | nil => intro j t; rfl
  | cons m rest ih =>
    intro j t
    cases m <;> simp [runJob, statusAfter, applyMut, ih]

theorem runJob_error (l : List Mut) :
    ∀ (j : BuildJob) (t : Nat), (runJob j t l).error = errorAfter j.error l := by
  induction l with
  | nil => intro j t; rfl
  | cons m rest ih =>
    intro j t
    cases m <;> simp [runJob, errorAfter, applyMut, ih]

theorem runJob_lastLogTy (l : List Mut) :
    ∀ (j : BuildJob) (t : Nat),
    ((runJob j t l).logs.getLast?).map LogEntry.type =
      lastLogTy ((j.logs.getLast?).map LogEntry.type) l := by
  induction l with
  | nil => intro j t; rfl
  | cons m rest ih =>
    intro j t
    cases m with
    | appendLog ty msg =>
      simp only [runJob, lastLogTy, ih]
      congr 1
      simp [applyMut, List.getLast?_concat]
    | setStatus s => simp [runJob, lastLogTy, applyMut, ih]
    | setPrUrl u => simp [runJob, lastLogTy, applyMut, ih]
    | setError e => simp [runJob, lastLogTy, applyMut, ih]

theorem statusAfter_append (l1 : List Mut) :
    ∀ (cur : String) (l2 : List Mut),
    statusAfter cur (l1 ++ l2) = statusAfter (statusAfter cur l1) l2 := by
  induction l1 with
  | nil => intro cur l2; rfl
  | cons m rest ih =>
    intro cur l2
    cases m <;> simp [statusAfter, ih]

theorem errorAfter_append (l1 : List Mut) :
    ∀ (acc : Option String) (l2 : List Mut),
    errorAfter acc (l1 ++ l2) = errorAfter (errorAfter acc l1) l2 := by
  induction l1 with
  | nil => intro acc l2; rfl
  | cons m rest ih =>
    intro acc l2
    cases m <;> simp [errorAfter, ih]

theorem lastLogTy_append (l1 : List Mut) :
    ∀ (acc : Option String) (l2 : List Mut),
    lastLogTy acc (l1 ++ l2) = lastLogTy (lastLogTy acc l1) l2 := by
  induction l1 with
  | nil => intro acc l2; rfl
  | cons m rest ih =>
    intro acc l2
    cases m <;> simp [lastLogTy, ih]

theorem statusSeqOk_append (l1 : List Mut) :
    ∀ (cur : String) (l2 : List Mut),
    statusSeqOk cur (l1 ++ l2) =
      (statusSeqOk cur l1 && statusSeqOk (statusAfter cur l1) l2) := by
  induction l1 with
  | nil => intro cur l2; simp [statusSeqOk, statusAfter]
  | cons m rest ih =>
    intro cur l2
    cases m <;> simp [statusSeqOk, statusAfter, ih, Bool.and_assoc]

theorem pc_fail_logsM (env : Env) (us : List Upsert) (bn : String) (e : String)
    (h : (push_via_composio env us bn).2 = some e) :
    (mutsOf (push_via_composio env us bn).1).all mutOnlyLog = true := by
  unfold push_via_composio at h ⊢
  repeat' split at h
  all_goals simp_all [mutsOf_append, mutsOf_cons_mut, mutsOf_cons_call, mutsOf_nil,
    mlog, mstat, mutOnlyLog]

/-! ## Literal status-step facts -/
theorem stepB_qc : statusStepB "queued" "cloning" = true := by decide

theorem stepB_cr : statusStepB "cloning" "running" = true := by decide

theorem stepB_rp : statusStepB "running" "pushing" = true := by decide

theorem stepB_pc : statusStepB "pushing" "completed" = true := by decide

theorem stepB_pf : statusStepB "pushing" "failed" = true := by decide

theorem stepB_cf : statusStepB "cloning" "failed" = true := by decide

theorem stepB_rf : statusStepB "running" "failed" = true := by decide

theorem statusLogBefore_of_first (l : List Mut) (h : firstIsStatusLog l = true)
    (rest : List Mut) : statusLogBefore (l ++ rest) = true := by
  cases l with
  | nil => simp [firstIsStatusLog] at h
  | cons m ms =>
    cases m with
    | appendLog ty msg =>
      simp only [firstIsStatusLog] at h
      simp [statusLogBefore, h]
    | setStatus s => simp [firstIsStatusLog] at h
    | setPrUrl u => simp [firstIsStatusLog] at h
    | setError e => simp [firstIsStatusLog] at h

theorem loggedFor_append_noWork (l : List Mut) :
    noWorkingSet l = true → ∀ (target : String), terminalS target = false →
    ∀ rest, loggedFor target (l ++ rest) = loggedFor target rest := by
  induction l with
  | nil => intro _ target _ rest; simp
  | cons m ms ih =>
    intro hl target ht rest
    rw [noWorkingSet, List.all_cons, Bool.and_eq_true] at hl
    cases m with
    | setStatus s =>
      have hterm : terminalS s = true := by simpa using hl.1
      have hs : s ≠ target := by
        intro hst
        rw [hst, ht] at hterm
        exact absurd hterm (by simp)
      simp only [List.cons_append, loggedFor, if_neg hs, Bool.true_and]
      exact ih hl.2 target ht rest
    | appendLog ty msg =>
      simp only [List.cons_append, loggedFor]
      exact ih hl.2 target ht rest
    | setPrUrl u =>
      simp only [List.cons_append, loggedFor]
      exact ih hl.2 target ht rest
    | setError e =>
      simp only [List.cons_append, loggedFor]
      exact ih hl.2 target ht rest

/-! ## Facts about `push_via_composio` -/
theorem pc_ok_seq (env : Env) (us : List Upsert) (bn : String)
    (h : (push_via_composio env us bn).2 = none) :
    statusSeqOk "pushing" (mutsOf (push_via_composio env us bn).1) = true ∧
    statusAfter "pushing" (mutsOf (push_via_composio env us bn).1) = "completed" := by
  unfold push_via_composio at h ⊢
  repeat' split at h
  all_goals simp_all [mutsOf_append, mutsOf_cons_mut, mutsOf_cons_call, mutsOf_nil,
    mlog, mstat, statusSeqOk, statusAfter, stepB_pc]

theorem pc_no_get_ref (env : Env) (us : List Upsert) (bn : String) :
    "api:get_ref" ∉ callsOf (push_via_composio env us bn).1 := by
  unfold push_via_composio
  repeat' split
  all_goals simp [callsOf_append, callsOf_cons_mut, callsOf_cons_call, callsOf_nil, mlog, mstat]

theorem pc_head (env : Env) (us : List Upsert) (bn : String) :
    (callsOf (push_via_composio env us bn).1).head? =
      some "composio:GITHUB_COMMIT_MULTIPLE_FILES" := by
  unfold push_via_composio
  repeat' split
  all_goals simp [callsOf_append, callsOf_cons_mut, callsOf_cons_call, callsOf_nil, mlog, mstat]

theorem pc_first (env : Env) (us : List Upsert) (bn : String) :
    firstIsStatusLog (mutsOf (push_via_composio env us bn).1) = true := by
  unfold push_via_composio
  repeat' split
  all_goals simp [mutsOf_append, mutsOf_cons_mut, mutsOf_cons_call, mutsOf_nil,
    mlog, mstat, firstIsStatusLog]

theorem pc_noWork (env : Env) (us : List Upsert) (bn : String) :
    noWorkingSet (mutsOf (push_via_composio env us bn).1) = true := by
  unfold push_via_composio
  repeat' split
  all_goals simp [mutsOf_append, mutsOf_cons_mut, mutsOf_cons_call, mutsOf_nil,
    mlog, mstat, noWorkingSet, terminalS]

/-! ## Facts about `push_via_github_api` -/
theorem commit_count_get_ref (env : Env) (us : List Upsert) :
    (callsOf (commit_files_api env us).1).count "api:get_ref" = 0 :=
  List.count_eq_zero.mpr
    (commit_files_api_not_mem env _ (by decide) (by decide) us)

theorem commit_not_mem_comp1 (env : Env) (us : List Upsert) :
    "composio:GITHUB_COMMIT_MULTIPLE_FILES" ∉ callsOf (commit_files_api env us).1 :=
  commit_files_api_not_mem env _ (by decide) (by decide) us

theorem commit_not_mem_comp2 (env : Env) (us : List Upsert) :
    "composio:GITHUB_CREATE_A_PULL_REQUEST" ∉ callsOf (commit_files_api env us).1 :=
  commit_files_api_not_mem env _ (by decide) (by decide) us

theorem pa_fail_logsM (env : Env) (us : List Upsert) (bn : String) (e : String)
    (h : (push_via_github_api env us bn).2 = some e) :
    (mutsOf (push_via_github_api env us bn).1).all mutOnlyLog = true := by
  rcases hc : commit_files_api env us with ⟨cevs, cr⟩
  have hmut : mutsOf cevs = [] := by
    have h2 := commit_files_api_mutsOf env us
    rw [hc] at h2
    exact h2
  unfold push_via_github_api at h ⊢
  simp only [hc] at h ⊢
  cases cr with
  | none =>
    repeat' split at h
    all_goals try simp_all only [mutsOf_append, mutsOf_cons_mut, mutsOf_cons_call,
      mutsOf_nil, hmut, mlog, mstat, List.append_assoc, List.cons_append, List.nil_append,
      List.append_nil]
    all_goals simp_all [mutOnlyLog]
  | some ce =>
    repeat' split at h
    all_goals try simp_all only [mutsOf_append, mutsOf_cons_mut, mutsOf_cons_call,
      mutsOf_nil, hmut, mlog, mstat, List.append_assoc, List.cons_append, List.nil_append,
      List.append_nil]
    all_goals simp_all [mutOnlyLog]

theorem pa_ok_seq (env : Env) (us : List Upsert) (bn : String)
    (h : (push_via_github_api env us bn).2 = none) :
    statusSeqOk "pushing" (mutsOf (push_via_github_api env us bn).1) = true ∧
    statusAfter "pushing" (mutsOf (push_via_github_api env us bn).1) = "completed" := by
  rcases hc : commit_files_api env us with ⟨cevs, cr⟩
  have hmut : mutsOf cevs = [] := by
    have h2 := commit_files_api_mutsOf env us
    rw [hc] at h2
    exact h2
  unfold push_via_github_api at h ⊢
  simp only [hc] at h ⊢
  cases cr with
  | none =>
    repeat' split at h
    all_goals try simp_all only [mutsOf_append, mutsOf_cons_mut, mutsOf_cons_call,
      mutsOf_nil, hmut, mlog, mstat, List.append_assoc, List.cons_append, List.nil_append,
      List.append_nil]
    all_goals simp_all [statusSeqOk, statusAfter, stepB_pc]
  | some ce =>
    repeat' split at h
    all_goals try simp_all only [mutsOf_append, mutsOf_cons_mut, mutsOf_cons_call,
      mutsOf_nil, hmut, mlog, mstat, List.append_assoc, List.cons_append, List.nil_append,
      List.append_nil]
    all_goals simp_all [statusSeqOk, statusAfter, stepB_pc]

theorem pa_count_get_ref (env : Env) (us : List Upsert) (bn : String) :
    (callsOf (push_via_github_api env us bn).1).count "api:get_ref" = 1 := by
  rcases hc : commit_files_api env us with ⟨cevs, cr⟩
  have hcall : (callsOf cevs).count "api:get_ref" = 0 := by
    have h2 := commit_count_get_ref env us
    rw [hc] at h2
    exact h2
  unfold push_via_github_api
  simp only [hc]
  cases cr with
  | none =>
    repeat' split
    all_goals try simp_all only [callsOf_append, callsOf_cons_mut, callsOf_cons_call,
      callsOf_nil, mlog, mstat, List.append_assoc, List.cons_append, List.nil_append,
      List.append_nil]
    all_goals simp_all [List.count_append, List.count_cons, List.count_nil, hcall]
  | some ce =>
    repeat' split
    all_goals try simp_all only [callsOf_append, callsOf_cons_mut, callsOf_cons_call,
      callsOf_nil, mlog, mstat, List.append_assoc, List.cons_append, List.nil_append,
      List.append_nil]
    all_goals simp_all [List.count_append, List.count_cons, List.count_nil, hcall]

theorem pa_no_composio (env : Env) (us : List Upsert) (bn : String) :
    "composio:GITHUB_COMMIT_MULTIPLE_FILES" ∉ callsOf (push_via_github_api env us bn).1 ∧
    "composio:GITHUB_CREATE_A_PULL_REQUEST" ∉ callsOf (push_via_github_api env us bn).1 := by
  rcases hc : commit_files_api env us with ⟨cevs, cr⟩
  have hm1 : "composio:GITHUB_COMMIT_MULTIPLE_FILES" ∉ callsOf cevs := by
    have h2 := commit_not_mem_comp1 env us
    rw [hc] at h2
    exact h2
  have hm2 : "composio:GITHUB_CREATE_A_PULL_REQUEST" ∉ callsOf cevs := by
    have h2 := commit_not_mem_comp2 env us
    rw [hc] at h2
    exact h2
  unfold push_via_github_api
  simp only [hc]
  cases cr with
  | none =>
    repeat' split
    all_goals try simp_all only [callsOf_append, callsOf_cons_mut, callsOf_cons_call,
      callsOf_nil, mlog, mstat, List.append_assoc, List.cons_append, List.nil_append,
      List.append_nil]
    all_goals simp_all [List.mem_append, List.mem_cons, hm1, hm2]
  | some ce =>
    repeat' split
    all_goals try simp_all only [callsOf_append, callsOf_cons_mut, callsOf_cons_call,
      callsOf_nil, mlog, mstat, List.append_assoc, List.cons_append, List.nil_append,
      List.append_nil]
    all_goals simp_all [List.mem_append, List.mem_cons, hm1, hm2]

theorem pa_first (env : Env) (us : List Upsert) (bn : String) :
    firstIsStatusLog (mutsOf (push_via_github_api env us bn).1) = true := by
  rcases hc : commit_files_api env us with ⟨cevs, cr⟩
  have hmut : mutsOf cevs = [] := by
    have h2 := commit_files_api_mutsOf env us
    rw [hc] at h2
    exact h2
  unfold push_via_github_api
  simp only [hc]
  cases cr with
  | none =>
    repeat' split
    all_goals try simp_all only [mutsOf_append, mutsOf_cons_mut, mutsOf_cons_call,
      mutsOf_nil, hmut, mlog, mstat, List.append_assoc, List.cons_append, List.nil_append,
      List.append_nil]
    all_goals simp_all [firstIsStatusLog]
  | some ce =>
    repeat' split
    all_goals try simp_all only [mutsOf_append, mutsOf_cons_mut, mutsOf_cons_call,
      mutsOf_nil, hmut, mlog, mstat, List.append_assoc, List.cons_append, List.nil_append,
      List.append_nil]
    all_goals simp_all [firstIsStatusLog]

theorem pa_noWork (env : Env) (us : List Upsert) (bn : String) :
    noWorkingSet (mutsOf (push_via_github_api env us bn).1) = true := by
  rcases hc : commit_files_api env us with ⟨cevs, cr⟩
  have hmut : mutsOf cevs = [] := by
    have h2 := commit_files_api_mutsOf env us
    rw [hc] at h2
    exact h2
  unfold push_via_github_api
  simp only [hc]
  cases cr with
  | none =>
    repeat' split
    all_goals try simp_all only [mutsOf_append, mutsOf_cons_mut, mutsOf_cons_call,
      mutsOf_nil, hmut, mlog, mstat, List.append_assoc, List.cons_append, List.nil_append,
      List.append_nil]
    all_goals simp_all [noWorkingSet, terminalS]
  | some ce =>
    repeat' split
    all_goals try simp_all only [mutsOf_append, mutsOf_cons_mut, mutsOf_cons_call,
      mutsOf_nil, hmut, mlog, mstat, List.append_assoc, List.cons_append, List.nil_append,
      List.append_nil]
    all_goals simp_all [noWorkingSet, terminalS]

theorem head?_append_some {α : Type} {l : List α} {a : α} (h : l.head? = some a)
    (l2 : List α) : (l ++ l2).head? = some a := by
  cases l with
  | nil => simp at h
  | cons x xs => simpa using h

theorem firstIsStatusLog_append {l : List Mut} (h : firstIsStatusLog l = true)
    (rest : List Mut) : firstIsStatusLog (l ++ rest) = true := by
  cases l with
  | nil => simp [firstIsStatusLog] at h
  | cons m ms =>
    cases m with
    | appendLog ty msg => simpa [firstIsStatusLog] using h
    | setStatus s => simp [firstIsStatusLog] at h
    | setPrUrl u => simp [firstIsStatusLog] at h
    | setError e => simp [firstIsStatusLog] at h

theorem noWork_append (a b : List Mut) :
    noWorkingSet (a ++ b) = (noWorkingSet a && noWorkingSet b) := List.all_append

/-! ## Facts about the publish-selection logic `attemptPush` -/
theorem at_no_cred (env : Env) (us : List Upsert) (bn : String)
    (hu : ¬(useComposio env = true)) (hp : ¬(patB env = true)) :
    attemptPush env us bn = ([], some "No GitHub credentials available. Configure Composio GitHub integration or set GITHUB_PAT in .env.") := by
  unfold attemptPush
  rw [if_neg hu, if_neg hp]

theorem at_fail_logsM (env : Env) (us : List Upsert) (bn : String) (e : String)
    (h : (attemptPush env us bn).2 = some e) :
    (mutsOf (attemptPush env us bn).1).all mutOnlyLog = true := by
  unfold attemptPush at h ⊢
  by_cases hu : useComposio env = true
  · rw [if_pos hu] at h ⊢
    rcases hP : push_via_composio env us bn with ⟨pevs, pr⟩
    rw [hP] at h
    cases pr with
    | none => simp at h
    | some e1 =>
      dsimp only at h ⊢
      have hP2 : (push_via_composio env us bn).2 = some e1 := by rw [hP]
      have hPmut : (mutsOf pevs).all mutOnlyLog = true := by
        have h2 := pc_fail_logsM env us bn e1 hP2
        rw [hP] at h2
        exact h2
      by_cases hp : patB env = true
      · rw [if_pos hp] at h ⊢
        rcases hA : push_via_github_api env us bn with ⟨aevs, ar⟩
        rw [hA] at h
        dsimp only at h ⊢
        have hA2 : (push_via_github_api env us bn).2 = some e := by
          rw [hA]
          exact h
        have hAmut : (mutsOf aevs).all mutOnlyLog = true := by
          have h2 := pa_fail_logsM env us bn e hA2
          rw [hA] at h2
          exact h2
        simp [mutsOf_append, mutsOf_cons_mut, mutsOf_nil, List.all_append, mlog,
          hPmut, hAmut, mutOnlyLog]
      · rw [if_neg hp] at h ⊢
        exact hPmut
  · rw [if_neg hu] at h ⊢
    by_cases hp : patB env = true
    · rw [if_pos hp] at h ⊢
      exact pa_fail_logsM env us bn e h
    · rw [if_neg hp] at h ⊢
      simp [mutsOf_nil]

theorem at_ok_seq (env : Env) (us : List Upsert) (bn : String)
    (h : (attemptPush env us bn).2 = none) :
    statusSeqOk "pushing" (mutsOf (attemptPush env us bn).1) = true ∧
    statusAfter "pushing" (mutsOf (attemptPush env us bn).1) = "completed" := by
  unfold attemptPush at h ⊢
  by_cases hu : useComposio env = true
  · rw [if_pos hu] at h ⊢
    rcases hP : push_via_composio env us bn with ⟨pevs, pr⟩
    rw [hP] at h
    cases pr with
    | none =>
      dsimp only
      have hP2 : (push_via_composio env us bn).2 = none := by rw [hP]
      have h2 := pc_ok_seq env us bn hP2
      rw [hP] at h2
      exact h2
    | some e1 =>
      dsimp only at h ⊢
      have hP2 : (push_via_composio env us bn).2 = some e1 := by rw [hP]
      have hPmut : (mutsOf pevs).all mutOnlyLog = true := by
        have h2 := pc_fail_logsM env us bn e1 hP2
        rw [hP] at h2
        exact h2
      by_cases hp : patB env = true
      · rw [if_pos hp] at h ⊢
        rcases hA : push_via_github_api env us bn with ⟨aevs, ar⟩
        rw [hA] at h
        dsimp only at h ⊢
        have hA2 : (push_via_github_api env us bn).2 = none := by
          rw [hA]
          exact h
        have hAseq := pa_ok_seq env us bn hA2
        rw [hA] at hAseq
        have hnorm : mutsOf (pevs ++ [mlog "status" ("Composio failed (" ++ e1 ++ "), trying GitHub API fallback...")] ++ aevs) =
            mutsOf pevs ++ ([Mut.appendLog "status" ("Composio failed (" ++ e1 ++ "), trying GitHub API fallback...")] ++ mutsOf aevs) := by
          simp [mutsOf_append, mutsOf_cons_mut, mutsOf_nil, mlog]
        rw [hnorm, statusSeqOk_append_logsM _ hPmut, statusAfter_append_logsM _ hPmut]
        simp only [List.cons_append, List.nil_append, statusSeqOk, statusAfter]
        exact hAseq
      · rw [if_neg hp] at h ⊢
        simp at h
  · rw [if_neg hu] at h ⊢
    by_cases hp : patB env = true
    · rw [if_pos hp] at h ⊢
      exact pa_ok_seq env us bn h
    · rw [if_neg hp] at h ⊢
      simp at h

theorem at_noWork (env : Env) (us : List Upsert) (bn : String) :
    noWorkingSet (mutsOf (attemptPush env us bn).1) = true := by
  unfold attemptPush
  by_cases hu : useComposio env = true
  · rw [if_pos hu]
    rcases hP : push_via_composio env us bn with ⟨pevs, pr⟩
    have hPw : noWorkingSet (mutsOf pevs) = true := by
      have h2 := pc_noWork env us bn
      rw [hP] at h2
      exact h2
    cases pr with
    | none => exact hPw
    | some e1 =>
      dsimp only
      by_cases hp : patB env = true
      · rw [if_pos hp]
        rcases hA : push_via_github_api env us bn with ⟨aevs, ar⟩
        have hAw : noWorkingSet (mutsOf aevs) = true := by
          have h2 := pa_noWork env us bn
          rw [hA] at h2
          exact h2
        have hnorm : mutsOf (pevs ++ [mlog "status" ("Composio failed (" ++ e1 ++ "), trying GitHub API fallback...")] ++ aevs) =
            mutsOf pevs ++ ([Mut.appendLog "status" ("Composio failed (" ++ e1 ++ "), trying GitHub API fallback...")] ++ mutsOf aevs) := by
          simp [mutsOf_append, mutsOf_cons_mut, mutsOf_nil, mlog]
        rw [hnorm, noWork_append, hPw, noWork_append, hAw]
        simp [noWorkingSet]
      · rw [if_neg hp]
        exact hPw
  · rw [if_neg hu]
    by_cases hp : patB env = true
    · rw [if_pos hp]
      exact pa_noWork env us bn
    · rw [if_neg hp]
      rfl

theorem at_first (env : Env) (us : List Upsert) (bn : String)
    (h : (useComposio env || patB env) = true) :
    firstIsStatusLog (mutsOf (attemptPush env us bn).1) = true := by
  unfold attemptPush
  by_cases hu : useComposio env = true
  · rw [if_pos hu]
    rcases hP : push_via_composio env us bn with ⟨pevs, pr⟩
    have hPf : firstIsStatusLog (mutsOf pevs) = true := by
      have h2 := pc_first env us bn
      rw [hP] at h2
      exact h2
    cases pr with
    | none => exact hPf
    | some e1 =>
      dsimp only
      by_cases hp : patB env = true
      · rw [if_pos hp]
        rcases hA : push_via_github_api env us bn with ⟨aevs, ar⟩
        have hnorm : mutsOf (pevs ++ [mlog "status" ("Composio failed (" ++ e1 ++ "), trying GitHub API fallback...")] ++ aevs) =
            mutsOf pevs ++ ([Mut.appendLog "status" ("Composio failed (" ++ e1 ++ "), trying GitHub API fallback...")] ++ mutsOf aevs) := by
          simp [mutsOf_append, mutsOf_cons_mut, mutsOf_nil, mlog]
        rw [hnorm]
        exact firstIsStatusLog_append hPf _
      · rw [if_neg hp]
        exact hPf
  · rw [if_neg hu]
    have hp : patB env = true := by
      rcases Bool.or_eq_true_iff.mp h with h1 | h1
      · exact absurd h1 hu
      · exact h1
    rw [if_pos hp]
    exact pa_first env us bn

theorem at_head_comp (env : Env) (us : List Upsert) (bn : String)
    (hu : useComposio env = true) :
    (callsOf (attemptPush env us bn).1).head? =
      some "composio:GITHUB_COMMIT_MULTIPLE_FILES" := by
  unfold attemptPush
  rw [if_pos hu]
  rcases hP : push_via_composio env us bn with ⟨pevs, pr⟩
  have hPh : (callsOf pevs).head? = some "composio:GITHUB_COMMIT_MULTIPLE_FILES" := by
    have h2 := pc_head env us bn
    rw [hP] at h2
    exact h2
  cases pr with
  | none => exact hPh
  | some e1 =>
    dsimp only
    by_cases hp : patB env = true
    · rw [if_pos hp]
      rcases hA : push_via_github_api env us bn with ⟨aevs, ar⟩
      have hnorm : callsOf (pevs ++ [mlog "status" ("Composio failed (" ++ e1 ++ "), trying GitHub API fallback...")] ++ aevs) =
          callsOf pevs ++ callsOf aevs := by
        simp [callsOf_append, callsOf_cons_mut, callsOf_nil, mlog]
      rw [hnorm]
      exact head?_append_some hPh _
    · rw [if_neg hp]
      exact hPh

theorem at_count_fallback (env : Env) (us : List Upsert) (bn : String) (e1 : String)
    (hu : useComposio env = true)
    (hP2 : (push_via_composio env us bn).2 = some e1) (hp : patB env = true) :
    (callsOf (attemptPush env us bn).1).count "api:get_ref" = 1 := by
  unfold attemptPush
  rw [if_pos hu]
  rcases hP : push_via_composio env us bn with ⟨pevs, pr⟩
  have hPc : (callsOf pevs).count "api:get_ref" = 0 := by
    have h2 := List.count_eq_zero.mpr (pc_no_get_ref env us bn)
    rw [hP] at h2
    exact h2
  have hpr : pr = some e1 := by
    rw [hP] at hP2
    exact hP2
  subst hpr
  dsimp only
  rw [if_pos hp]
  rcases hA : push_via_github_api env us bn with ⟨aevs, ar⟩
  have hAc : (callsOf aevs).count "api:get_ref" = 1 := by
    have h2 := pa_count_get_ref env us bn
    rw [hA] at h2
    exact h2
  have hnorm : callsOf (pevs ++ [mlog "status" ("Composio failed (" ++ e1 ++ "), trying GitHub API fallback...")] ++ aevs) =
      callsOf pevs ++ callsOf aevs := by
    simp [callsOf_append, callsOf_cons_mut, callsOf_nil, mlog]
  rw [hnorm, List.count_append, hPc, hAc]

theorem at_count_no_api (env : Env) (us : List Upsert) (bn : String)
    (hu : useComposio env = true)
    (hor : (push_via_composio env us bn).2 = none ∨ ¬(patB env = true)) :
    (callsOf (attemptPush env us bn).1).count "api:get_ref" = 0 := by
  unfold attemptPush
  rw [if_pos hu]
  rcases hP : push_via_composio env us bn with ⟨pevs, pr⟩
  have hPc : (callsOf pevs).count "api:get_ref" = 0 := by
    have h2 := List.count_eq_zero.mpr (pc_no_get_ref env us bn)
    rw [hP] at h2
    exact h2
  cases pr with
  | none => exact hPc
  | some e1 =>
    dsimp only
    rcases hor with hnone | hnp
    · rw [hP] at hnone
      exact absurd hnone (by simp)
    · rw [if_neg hnp]
      exact hPc

theorem at_api_only (env : Env) (us : List Upsert) (bn : String)
    (hu : ¬(useComposio env = true)) (hp : patB env = true) :
    (callsOf (attemptPush env us bn).1).count "api:get_ref" = 1 ∧
    "composio:GITHUB_COMMIT_MULTIPLE_FILES" ∉ callsOf (attemptPush env us bn).1 ∧
    "composio:GITHUB_CREATE_A_PULL_REQUEST" ∉ callsOf (attemptPush env us bn).1 := by
  unfold attemptPush
  rw [if_neg hu, if_pos hp]
  exact ⟨pa_count_get_ref env us bn, (pa_no_composio env us bn).1,
    (pa_no_composio env us bn).2⟩

theorem run_agent_seqOk (env : Env) (n : Int) (title : String) :
    statusSeqOk "queued" (mutsOf (run_agent env n title)) = true := by
  unfold run_agent
  cases hw : ensure_workspace env with
  | error e =>
    dsimp only
    simp only [failTail, mutsOf_append, mutsOf_cons_mut, mutsOf_cons_call, mutsOf_nil,
      mlog, mstat, List.append_assoc, List.cons_append, List.nil_append]
    simp [statusSeqOk, stepB_qc, stepB_cf]
  | ok w =>
    dsimp only
    cases har : env.agentRaise with
    | some e =>
      dsimp only
      simp only [failTail, mutsOf_append, mutsOf_cons_mut, mutsOf_cons_call, mutsOf_nil,
        mlog, mstat, List.append_assoc, List.cons_append, List.nil_append]
      simp [statusSeqOk, statusSeqOk_stream, stepB_qc, stepB_cr, stepB_rf]
    | none =>
      dsimp only
      by_cases hup : (collect_changed_files env).isEmpty = true
      · rw [if_pos hup]
        simp only [failTail, mutsOf_append, mutsOf_cons_mut, mutsOf_cons_call, mutsOf_nil,
          mlog, mstat, List.append_assoc, List.cons_append, List.nil_append]
        simp [statusSeqOk, statusSeqOk_stream, stepB_qc, stepB_cr, stepB_rf]
      · rw [if_neg hup]
        rcases hAp : attemptPush env (collect_changed_files env) ("ai/issue-" ++ toString n)
          with ⟨pevs, r⟩
        cases r with
        | none =>
          dsimp only
          have hseq := (at_ok_seq env (collect_changed_files env)
            ("ai/issue-" ++ toString n) (by rw [hAp])).1
          rw [hAp] at hseq
          simp only [mutsOf_append, mutsOf_cons_mut, mutsOf_cons_call, mutsOf_nil,
            mlog, mstat, List.append_assoc, List.cons_append, List.nil_append]
          simp [statusSeqOk, statusSeqOk_stream, stepB_qc, stepB_cr, stepB_rp, hseq]
        | some e =>
          dsimp only
          have hfail := at_fail_logsM env (collect_changed_files env)
            ("ai/issue-" ++ toString n) e (by rw [hAp])
          rw [hAp] at hfail
          have hrw := statusSeqOk_append_logsM _ hfail
          simp only [failTail, mutsOf_append, mutsOf_cons_mut, mutsOf_cons_call, mutsOf_nil,
            mlog, mstat, List.append_assoc, List.cons_append, List.nil_append]
          simp [statusSeqOk, statusSeqOk_stream, stepB_qc, stepB_cr, stepB_rp, stepB_pf, hrw]

theorem runJob_prUrl (l : List Mut) :
    ∀ (j : BuildJob) (t : Nat), (runJob j t l).pr_url = prUrlAfter j.pr_url l := by
  induction l with
  | nil => intro j t; rfl
  | cons m rest ih =>
    intro j t
    cases m <;> simp [runJob, prUrlAfter, applyMut, ih]

theorem errorAfter_append_logsM :
    ∀ (l : List Mut), l.all mutOnlyLog = true →
    ∀ (acc : Option String) (rest : List Mut),
    errorAfter acc (l ++ rest) = errorAfter acc rest := by
  intro l
  induction l with
  | nil => intro _ acc rest; simp
  | cons m ms ih =>
    intro hl acc rest
    rw [List.all_cons, Bool.and_eq_true] at hl
    cases m with
    | appendLog ty msg =>
      simp only [List.cons_append, errorAfter]
      exact ih hl.2 acc rest
    | setStatus s => simp [mutOnlyLog] at hl
    | setPrUrl u => simp [mutOnlyLog] at hl
    | setError e => simp [mutOnlyLog] at hl

theorem prUrlAfter_append_logsM :
    ∀ (l : List Mut), l.all mutOnlyLog = true →
    ∀ (acc : JValue) (rest : List Mut),
    prUrlAfter acc (l ++ rest) = prUrlAfter acc rest := by
  intro l
  induction l with
  | nil => intro _ acc rest; simp
  | cons m ms ih =>
    intro hl acc rest
    rw [List.all_cons, Bool.and_eq_true] at hl
    cases m with
    | appendLog ty msg =>
      simp only [List.cons_append, prUrlAfter]
      exact ih hl.2 acc rest
    | setStatus s => simp [mutOnlyLog] at hl
    | setPrUrl u => simp [mutOnlyLog] at hl
    | setError e => simp [mutOnlyLog] at hl

theorem errorAfter_stream (msgs : List AgentMessage) (acc : Option String) (rest : List Mut) :
    errorAfter acc (mutsOf (msgs.foldl processMessage ([], "")).1 ++ rest) =
    errorAfter acc rest :=
  errorAfter_append_logsM _ (streamMuts_all msgs) acc rest

theorem prUrlAfter_stream (msgs : List AgentMessage) (acc : JValue) (rest : List Mut) :
    prUrlAfter acc (mutsOf (msgs.foldl processMessage ([], "")).1 ++ rest) =
    prUrlAfter acc rest :=
  prUrlAfter_append_logsM _ (streamMuts_all msgs) acc rest

/-- C1: for every build job (started `queued`) and every environment, the
sequence of job states produced by `_run_agent` is pairwise monotone under
`queued < cloning < running < pushing < {completed, failed}` (`statusLe`
also forces a terminal status to never change again), so any sequence of
reads observes a non-decreasing status. -/
theorem C1_status_monotone (env : Env) (n : Int) (title : String) (j0 : BuildJob)
    (h0 : j0.status = "queued") :
    List.Pairwise (fun a b : BuildJob => statusLe a.status b.status)
      (j0 :: traceJobs j0 0 (mutsOf (run_agent env n title))) :=
  trace_pairwise_statusLe _ j0 0 (by rw [h0]; exact run_agent_seqOk env n title)

/-- C1 witness at a concrete environment and job. -/
theorem C1_witness :
    List.Pairwise (fun a b : BuildJob => statusLe a.status b.status)
      (jobW :: traceJobs jobW 0 (mutsOf (run_agent envW 1 "t"))) :=
  C1_status_monotone envW 1 "t" jobW rfl

/-- C2: along every `_run_agent` trace, the logs of an earlier job state are
a prefix of the logs of every later state (`logsExtend`): the log is
append-only, entries are never mutated, reordered or removed. -/
theorem C2_logs_append_only (env : Env) (n : Int) (title : String) (j0 : BuildJob) :
    List.Pairwise logsExtend (j0 :: traceJobs j0 0 (mutsOf (run_agent env n title))) :=
  trace_pairwise_logsExtend _ j0 0

/-- C6 counterexample: the SSE generator starts its cursor at 0, so a reader
attaching to a job that already has n = 2 log entries receives both
pre-attach entries (followed by the terminal event) — contradicting the
claim that entries appended before attachment are never delivered. -/
theorem C6_counterexample :
    event_generator [jobC6] 0 =
      [SSE.log ⟨0, "status", "one"⟩, SSE.log ⟨1, "status", "two"⟩,
       SSE.done "completed" .null none] := rfl

/-- C6 amended: a reader attaching at any point receives the job's entire
log from the beginning (the per-stream cursor starts at zero), followed by
later entries and the terminal event. -/
theorem C6_amended (j : BuildJob) (rest : List BuildJob) :
    ∃ tail, event_generator (j :: rest) 0 = j.logs.map SSE.log ++ tail := by
  unfold event_generator
  by_cases ht : isTerminal j.status = true
  · rw [if_pos ht]
    exact ⟨[SSE.done j.status j.pr_url j.error], by simp⟩
  · rw [if_neg ht]
    exact ⟨event_generator rest j.logs.length, by simp⟩

/-- C7 counterexample: with an existing workspace whose `git pull --ff-only`
exits non-zero (diverged history), `ensure_workspace` still returns the
workspace path successfully — the exit codes of checkout/pull are never
inspected — contradicting the claim that it fails in that case. -/
theorem C7_counterexample :
    envC7.ws.pullCode = 1 ∧
    ensure_workspace envC7 = .ok "/tmp/agent-workspace/r" := ⟨rfl, rfl⟩

/-- C7 amended: `ensure_workspace` fails (with the clone error) exactly when
a fresh clone exits non-zero; when a workspace already exists, checkout and
fast-forward failures are ignored and the workspace path is returned. -/
theorem C7_amended (env : Env) :
    (env.ws.gitDirExists = false → env.ws.cloneCode ≠ 0 →
      ensure_workspace env = .error ("git clone failed: " ++ env.ws.cloneStderr)) ∧
    (env.ws.gitDirExists = true →
      ensure_workspace env = .ok ("/tmp/agent-workspace/" ++ env.github_repo)) ∧
    (env.ws.gitDirExists = false → env.ws.cloneCode = 0 →
      ensure_workspace env = .ok ("/tmp/agent-workspace/" ++ env.github_repo)) := by
  unfold ensure_workspace
  refine ⟨fun h1 h2 => ?_, fun h1 => ?_, fun h1 h2 => ?_⟩
  · rw [if_neg (by simp [h1]), if_pos h2]
  · rw [if_pos h1]
  · rw [if_neg (by simp [h1]), if_neg (by simp [h2])]

/-- C7 witness at concrete environments. -/
theorem C7_witness :
    envC7.ws.gitDirExists = true ∧
    ensure_workspace envC7 = .ok ("/tmp/agent-workspace/" ++ envC7.github_repo) :=
  ⟨rfl, (C7_amended envC7).2.1 rfl⟩

/-- C10: `start_build` inserts the freshly created job into the registry
before its background task can run and returns it; an immediate `get_job`
with the returned identifier finds that job, whose status is `queued` and
whose `pr_url` and `error` are null. -/
theorem C10_start_build (jobs : List (String × BuildJob)) (build_id : String)
    (n : Int) (now : Nat) :
    get_job (start_build jobs build_id n now).2 build_id =
      some (start_build jobs build_id n now).1 ∧
    (start_build jobs build_id n now).1.status = "queued" ∧
    (start_build jobs build_id n now).1.pr_url = .null ∧
    (start_build jobs build_id n now).1.error = none ∧
    (start_build jobs build_id n now).1.build_id = build_id := by
  refine ⟨?_, rfl, rfl, rfl, rfl⟩
  simp [start_build, get_job, List.find?]

theorem processBlock_spec (acc : List Ev × String) (b : ContentBlock) :
    (processBlock acc b).1 = acc.1 ++ specBlockEvents b := by
  unfold processBlock specBlockEvents
  split_ifs <;> simp

theorem foldl_processBlock_spec :
    ∀ (bs : List ContentBlock) (acc : List Ev × String),
    (bs.foldl processBlock acc).1 = acc.1 ++ bs.flatMap specBlockEvents := by
  intro bs
  induction bs with
  | nil => intro acc; simp
  | cons b rest ih =>
    intro acc
    rw [List.foldl_cons, ih, processBlock_spec]
    simp [List.flatMap_cons]

theorem processMessage_spec (acc : List Ev × String) (m : AgentMessage) :
    (processMessage acc m).1 = acc.1 ++ specMessageEvents m := by
  cases m with
  | streamEvent etype delta =>
    simp only [processMessage, specMessageEvents]
    split_ifs <;> simp
  | assistantMessage content => exact foldl_processBlock_spec content acc
  | otherMessage => simp [processMessage, specMessageEvents]

/-- C8 counterexample: the agent driver receives a text fragment " " (it is
accumulated into the narrative, as the second component shows) but appends
no log entry for it — contradicting the claim that every text fragment is
appended to the log. -/
theorem C8_counterexample :
    (msgsC8.foldl processMessage ([], "")).1 = [] ∧
    (msgsC8.foldl processMessage ([], "")).2 = " " := ⟨rfl, rfl⟩

/-- C8 amended: the driver loop appends exactly one `agent_text` entry per
stream text delta, one `tool_use` entry per tool invocation (with the
truncated argument summary) and one `agent_text` entry per non-whitespace
assistant text block, in arrival order; whitespace-only text blocks are
accumulated into the narrative but not logged. -/
theorem C8_amended (msgs : List AgentMessage) :
    (msgs.foldl processMessage ([], "")).1 = msgs.flatMap specMessageEvents := by
  have hgen : ∀ (ms : List AgentMessage) (acc : List Ev × String),
      (ms.foldl processMessage acc).1 = acc.1 ++ ms.flatMap specMessageEvents := by
    intro ms
    induction ms with
    | nil => intro acc; simp
    | cons m rest ih =>
      intro acc
      rw [List.foldl_cons, ih, processMessage_spec]
      simp [List.flatMap_cons]
  simpa using hgen msgs ([], "")

/-- C5 counterexample: the pull-request response carries no `html_url`
anywhere (fourth conjunct), the call reports no failure, and yet the job is
marked `completed` with the hard-coded fallback URL instead of being
treated as an error — the push path does not search for required fields. -/
theorem C5_counterexample :
    (runJob jobW 0 (mutsOf (run_agent envC5 7 "t"))).status = "completed" ∧
    (runJob jobW 0 (mutsOf (run_agent envC5 7 "t"))).pr_url =
      .str "https://github.com/o/r/pulls" ∧
    (runJob jobW 0 (mutsOf (run_agent envC5 7 "t"))).error = none ∧
    find_in_nested envC5.prResult "html_url" = none :=
  ⟨rfl, rfl, rfl, rfl⟩

/-- C5 amended: issue creation (`_create_via_composio`) treats a response
whose recursive search yields no truthy `html_url` or `number` as an error
— it only succeeds when both are found truthy; but the build-push path
(`_push_via_composio`) treats a successful pull-request response without
`html_url` as success, substituting the repository's /pulls URL. -/
theorem C5_amended :
    (∀ result : JValue, (create_via_composio result).isOk = true →
      optFalsy (find_in_nested result "html_url") = false ∧
      optFalsy (find_in_nested result "number") = false) ∧
    (∀ (env : Env) (us : List Upsert) (bn : String) (d1 : JValue)
      (fields : List (String × JValue)),
      composio_exec "GITHUB_COMMIT_MULTIPLE_FILES" env.commitResult = .ok d1 →
      composio_exec "GITHUB_CREATE_A_PULL_REQUEST" env.prResult = .ok (.obj fields) →
      lookupField fields "html_url" = none →
      (push_via_composio env us bn).2 = none ∧
      Ev.jobMut (Mut.setPrUrl (.str ("https://github.com/" ++ env.github_owner ++
        "/" ++ env.github_repo ++ "/pulls"))) ∈ (push_via_composio env us bn).1 ∧
      mstat "completed" ∈ (push_via_composio env us bn).1) := by
  constructor
  · intro result h
    unfold create_via_composio at h
    split at h
    · simp [Except.isOk, Except.toBool] at h
    · by_cases hc : (optFalsy (find_in_nested result "html_url") ||
          optFalsy (find_in_nested result "number")) = true
      · rw [if_pos hc] at h
        simp [Except.isOk, Except.toBool] at h
      · simp only [Bool.or_eq_true] at hc
        push_neg at hc
        exact ⟨by simpa using hc.1, by simpa using hc.2⟩
  · intro env us bn d1 fields h1 h2 h3
    have hd : dictGetD (.obj fields) "html_url"
        (.str ("https://github.com/" ++ env.github_owner ++ "/" ++ env.github_repo ++ "/pulls")) =
        .ok (.str ("https://github.com/" ++ env.github_owner ++ "/" ++ env.github_repo ++ "/pulls")) := by
      unfold dictGetD
      dsimp only
      rw [h3]
    unfold push_via_composio
    rw [h1, h2]
    dsimp only
    rw [hd]
    dsimp only
    refine ⟨rfl, ?_, ?_⟩ <;> simp [mstat]

/-- C5 witness for the amended theorem at concrete inputs. -/
theorem C5_witness :
    (create_via_composio (.obj [("data", .obj [("number", .num 5)])])).isOk = false ∧
    optFalsy (find_in_nested (.obj [("data", .obj [("number", .num 5)])]) "html_url") = true ∧
    (push_via_composio envC5 [⟨"a.txt", "x"⟩] "ai/issue-7").2 = none := by
  refine ⟨rfl, rfl, ?_⟩
  exact ((C5_amended.2 envC5 [⟨"a.txt", "x"⟩] "ai/issue-7" (.obj [])
    [("number", .num 5)] rfl rfl rfl)).1

/-- C3: whenever the workspace step succeeds, the agent stream completes,
and the change collector returns no upserts, the job ends `failed` with the
distinctive message "Agent made no file changes" (not an infrastructure
error), `pr_url` stays null, and no publish network call is made at all. -/
theorem C3_no_changes (env : Env) (n : Int) (title : String) (j0 : BuildJob)
    (hws : env.ws.gitDirExists = true ∨ env.ws.cloneCode = 0)
    (hr : env.agentRaise = none)
    (hup : collect_changed_files env = [])
    (hpr : j0.pr_url = .null) :
    (runJob j0 0 (mutsOf (run_agent env n title))).status = "failed" ∧
    (runJob j0 0 (mutsOf (run_agent env n title))).error =
      some "Agent made no file changes" ∧
    (runJob j0 0 (mutsOf (run_agent env n title))).pr_url = .null ∧
    callsOf (run_agent env n title) = [] := by
  have hwk : ∃ w, ensure_workspace env = Except.ok w := by
    unfold ensure_workspace
    by_cases hg : env.ws.gitDirExists = true
    · rw [if_pos hg]; exact ⟨_, rfl⟩
    · rcases hws with h | h
      · exact absurd h hg
      · rw [if_neg hg, if_neg (by simp [h])]; exact ⟨_, rfl⟩
  obtain ⟨w, hwv⟩ := hwk
  unfold run_agent
  rw [hwv]
  dsimp only
  rw [hr]
  dsimp only
  rw [if_pos (by rw [hup]; rfl)]
  simp only [mutsOf_append, mutsOf_cons_mut, mutsOf_cons_call, mutsOf_nil, mlog, mstat,
    List.append_assoc, List.cons_append, List.nil_append]
  refine ⟨?_, ?_, ?_, ?_⟩
  · rw [runJob_status]
    simp [statusAfter, statusAfter_stream]
  · rw [runJob_error]
    simp [errorAfter, errorAfter_stream]
  · rw [runJob_prUrl]
    rw [hpr]
    simp [prUrlAfter, prUrlAfter_stream]
  · simp [callsOf_append, callsOf_cons_mut, callsOf_cons_call, callsOf_nil, callsOf_stream]

/-- C3 witness at the concrete environment (no changed files). -/
theorem C3_witness :
    (runJob jobW 0 (mutsOf (run_agent envW 1 "t"))).status = "failed" ∧
    (runJob jobW 0 (mutsOf (run_agent envW 1 "t"))).error =
      some "Agent made no file changes" ∧
    (runJob jobW 0 (mutsOf (run_agent envW 1 "t"))).pr_url = .null ∧
    callsOf (run_agent envW 1 "t") = [] :=
  C3_no_changes envW 1 "t" jobW (Or.inl rfl) rfl rfl rfl

theorem run_calls_eq_attempt (env : Env) (n : Int) (title : String)
    (hwv : ∃ w, ensure_workspace env = Except.ok w)
    (hr : env.agentRaise = none)
    (hup : (collect_changed_files env).isEmpty = false) :
    callsOf (run_agent env n title) =
      callsOf (attemptPush env (collect_changed_files env)
        ("ai/issue-" ++ toString n)).1 := by
  obtain ⟨w, hwv⟩ := hwv
  unfold run_agent
  rw [hwv]
  dsimp only
  rw [hr]
  dsimp only
  rw [if_neg (by simp [hup])]
  rcases hAp : attemptPush env (collect_changed_files env) ("ai/issue-" ++ toString n)
    with ⟨pevs, r⟩
  cases r with
  | none =>
    dsimp only
    simp [callsOf_append, callsOf_cons_mut, callsOf_cons_call, callsOf_nil, callsOf_stream,
      mlog, mstat]
  | some e =>
    dsimp only
    simp [callsOf_append, callsOf_cons_mut, callsOf_cons_call, callsOf_nil, callsOf_stream,
      failTail, mlog, mstat]

/-- C4: the publish selection policy, for every run that reaches the publish
step (workspace ok, agent stream ok, non-empty change set):
(a) with a Composio credential the managed strategy is attempted first —
the first network call is the Composio commit;
(b) if the managed push fails and GITHUB_PAT is set, the direct GitHub API
strategy is attempted exactly once (one `api:get_ref` call);
(c) with only GITHUB_PAT the direct strategy is used exclusively — one API
attempt and no Composio call at all;
(d) with neither credential the job fails with the distinctive
configuration message and no publish network call is attempted. -/
theorem C4_publish_policy (env : Env) (n : Int) (title : String) (j0 : BuildJob)
    (hwv : ∃ w, ensure_workspace env = Except.ok w)
    (hr : env.agentRaise = none)
    (hup : (collect_changed_files env).isEmpty = false) :
    (useComposio env = true →
      (callsOf (run_agent env n title)).head? =
        some "composio:GITHUB_COMMIT_MULTIPLE_FILES") ∧
    (∀ e1, useComposio env = true →
      (push_via_composio env (collect_changed_files env)
        ("ai/issue-" ++ toString n)).2 = some e1 →
      patB env = true →
      (callsOf (run_agent env n title)).count "api:get_ref" = 1) ∧
    (useComposio env = false → patB env = true →
      (callsOf (run_agent env n title)).count "api:get_ref" = 1 ∧
      "composio:GITHUB_COMMIT_MULTIPLE_FILES" ∉ callsOf (run_agent env n title) ∧
      "composio:GITHUB_CREATE_A_PULL_REQUEST" ∉ callsOf (run_agent env n title)) ∧
    (useComposio env = false → patB env = false →
      (runJob j0 0 (mutsOf (run_agent env n title))).status = "failed" ∧
      (runJob j0 0 (mutsOf (run_agent env n title))).error =
        some "No GitHub credentials available. Configure Composio GitHub integration or set GITHUB_PAT in .env." ∧
      callsOf (run_agent env n title) = []) := by
  have hcalls := run_calls_eq_attempt env n title hwv hr hup
  refine ⟨?_, ?_, ?_, ?_⟩
  · intro hu
    rw [hcalls]
    exact at_head_comp env _ _ hu
  · intro e1 hu hP2 hp
    rw [hcalls]
    exact at_count_fallback env _ _ e1 hu hP2 hp
  · intro hu hp
    rw [hcalls]
    exact at_api_only env _ _ (by simp [hu]) hp
  · intro hu hp
    have hnc := at_no_cred env (collect_changed_files env) ("ai/issue-" ++ toString n)
      (by simp [hu]) (by simp [hp])
    obtain ⟨w, hwv⟩ := hwv
    unfold run_agent
    rw [hwv]
    dsimp only
    rw [hr]
    dsimp only
    rw [if_neg (by simp [hup]), hnc]
    dsimp only
    simp only [mutsOf_append, mutsOf_cons_mut, mutsOf_cons_call, mutsOf_nil, failTail,
      mlog, mstat, List.append_assoc, List.cons_append, List.nil_append]
    refine ⟨?_, ?_, ?_⟩
    · rw [runJob_status]
      simp [statusAfter, statusAfter_stream]
    · rw [runJob_error]
      simp [errorAfter, errorAfter_stream]
    · simp [callsOf_append, callsOf_cons_mut, callsOf_cons_call, callsOf_nil, callsOf_stream]

theorem loggedFor_of_noWork (l : List Mut) (hl : noWorkingSet l = true)
    (target : String) (ht : terminalS target = false) : loggedFor target l = true := by
  have h2 := loggedFor_append_noWork l hl target ht []
  rw [List.append_nil] at h2
  rw [h2]
  rfl

theorem statusLogBefore_of_first_bare (l : List Mut) (h : firstIsStatusLog l = true) :
    statusLogBefore l = true := by
  have h2 := statusLogBefore_of_first l h []
  rwa [List.append_nil] at h2

theorem run_agent_logged (env : Env) (n : Int) (title : String) :
    loggedFor "cloning" (mutsOf (run_agent env n title)) = true ∧
    loggedFor "running" (mutsOf (run_agent env n title)) = true ∧
    ((useComposio env || patB env) = true →
      loggedFor "pushing" (mutsOf (run_agent env n title)) = true) := by
  unfold run_agent
  cases hw : ensure_workspace env with
  | error e =>
    dsimp only
    simp only [failTail, mutsOf_append, mutsOf_cons_mut, mutsOf_cons_call, mutsOf_nil,
      mlog, mstat, List.append_assoc, List.cons_append, List.nil_append]
    refine ⟨?_, ?_, fun _ => ?_⟩ <;> simp [loggedFor, statusLogBefore]
  | ok w =>
    dsimp only
    cases har : env.agentRaise with
    | some e =>
      dsimp only
      simp only [failTail, mutsOf_append, mutsOf_cons_mut, mutsOf_cons_call, mutsOf_nil,
        mlog, mstat, List.append_assoc, List.cons_append, List.nil_append]
      refine ⟨?_, ?_, fun _ => ?_⟩ <;>
        simp [loggedFor, statusLogBefore, loggedFor_stream]
    | none =>
      dsimp only
      by_cases hup : (collect_changed_files env).isEmpty = true
      · rw [if_pos hup]
        simp only [failTail, mutsOf_append, mutsOf_cons_mut, mutsOf_cons_call, mutsOf_nil,
          mlog, mstat, List.append_assoc, List.cons_append, List.nil_append]
        refine ⟨?_, ?_, fun _ => ?_⟩ <;>
          simp [loggedFor, statusLogBefore, loggedFor_stream]
      · rw [if_neg hup]
        rcases hAp : attemptPush env (collect_changed_files env) ("ai/issue-" ++ toString n)
          with ⟨pevs, r⟩
        have hNW : noWorkingSet (mutsOf pevs) = true := by
          have h2 := at_noWork env (collect_changed_files env) ("ai/issue-" ++ toString n)
          rw [hAp] at h2
          exact h2
        have hlogc := loggedFor_append_noWork (mutsOf pevs) hNW "cloning" (by decide)
        have hlogr := loggedFor_append_noWork (mutsOf pevs) hNW "running" (by decide)
        have hlogp := loggedFor_append_noWork (mutsOf pevs) hNW "pushing" (by decide)
        have hbarec := loggedFor_of_noWork (mutsOf pevs) hNW "cloning" (by decide)
        have hbarer := loggedFor_of_noWork (mutsOf pevs) hNW "running" (by decide)
        have hbarep := loggedFor_of_noWork (mutsOf pevs) hNW "pushing" (by decide)
        cases r with
        | none =>
          dsimp only
          refine ⟨?_, ?_, fun hor => ?_⟩
          · simp only [mutsOf_append, mutsOf_cons_mut, mutsOf_cons_call, mutsOf_nil,
              mlog, mstat, List.append_assoc, List.cons_append, List.nil_append]
            simp [loggedFor, statusLogBefore, loggedFor_stream, hbarec]
          · simp only [mutsOf_append, mutsOf_cons_mut, mutsOf_cons_call, mutsOf_nil,
              mlog, mstat, List.append_assoc, List.cons_append, List.nil_append]
            simp [loggedFor, statusLogBefore, loggedFor_stream, hbarer]
          · have hfirst : firstIsStatusLog (mutsOf pevs) = true := by
              have h2 := at_first env (collect_changed_files env)
                ("ai/issue-" ++ toString n) hor
              rw [hAp] at h2
              exact h2
            have hslb := statusLogBefore_of_first_bare (mutsOf pevs) hfirst
            simp only [mutsOf_append, mutsOf_cons_mut, mutsOf_cons_call, mutsOf_nil,
              mlog, mstat, List.append_assoc, List.cons_append, List.nil_append]
            simp [loggedFor, statusLogBefore, loggedFor_stream, hbarep, hslb]
        | some e =>
          dsimp only
          refine ⟨?_, ?_, fun hor => ?_⟩
          · simp only [failTail, mutsOf_append, mutsOf_cons_mut, mutsOf_cons_call,
              mutsOf_nil, mlog, mstat, List.append_assoc, List.cons_append, List.nil_append]
            simp [loggedFor, statusLogBefore, loggedFor_stream, hlogc]
          · simp only [failTail, mutsOf_append, mutsOf_cons_mut, mutsOf_cons_call,
              mutsOf_nil, mlog, mstat, List.append_assoc, List.cons_append, List.nil_append]
            simp [loggedFor, statusLogBefore, loggedFor_stream, hlogr]
          · have hfirst : firstIsStatusLog (mutsOf pevs) = true := by
              have h2 := at_first env (collect_changed_files env)
                ("ai/issue-" ++ toString n) hor
              rw [hAp] at h2
              exact h2
            have hslb := statusLogBefore_of_first (mutsOf pevs) hfirst
            simp only [failTail, mutsOf_append, mutsOf_cons_mut, mutsOf_cons_call,
              mutsOf_nil, mlog, mstat, List.append_assoc, List.cons_append, List.nil_append]
            simp [loggedFor, statusLogBefore, loggedFor_stream, hlogp, hslb]

theorem run_agent_failed_tail (env : Env) (n : Int) (title : String) (j0 : BuildJob)
    (h : (runJob j0 0 (mutsOf (run_agent env n title))).status = "failed") :
    (runJob j0 0 (mutsOf (run_agent env n title))).error.isSome = true ∧
    ((runJob j0 0 (mutsOf (run_agent env n title))).logs.getLast?).map LogEntry.type =
      some "error" := by
  rw [runJob_error, runJob_lastLogTy]
  rw [runJob_status] at h
  unfold run_agent at h ⊢
  cases hw : ensure_workspace env with
  | error e =>
    rw [hw] at h
    dsimp only at h ⊢
    simp only [failTail, mutsOf_append, mutsOf_cons_mut, mutsOf_cons_call, mutsOf_nil,
      mlog, mstat, List.append_assoc, List.cons_append, List.nil_append]
    constructor
    · simp [errorAfter, errorAfter_append]
    · simp [lastLogTy, lastLogTy_append]
  | ok w =>
    rw [hw] at h
    dsimp only at h ⊢
    cases har : env.agentRaise with
    | some e =>
      rw [har] at h
      dsimp only at h ⊢
      simp only [failTail, mutsOf_append, mutsOf_cons_mut, mutsOf_cons_call, mutsOf_nil,
        mlog, mstat, List.append_assoc, List.cons_append, List.nil_append]
      constructor
      · simp [errorAfter, errorAfter_append, errorAfter_stream]
      · simp [lastLogTy, lastLogTy_append]
    | none =>
      rw [har] at h
      dsimp only at h ⊢
      by_cases hup : (collect_changed_files env).isEmpty = true
      · rw [if_pos hup] at h ⊢
        simp only [failTail, mutsOf_append, mutsOf_cons_mut, mutsOf_cons_call, mutsOf_nil,
          mlog, mstat, List.append_assoc, List.cons_append, List.nil_append]
        constructor
        · simp [errorAfter, errorAfter_append, errorAfter_stream]
        · simp [lastLogTy, lastLogTy_append]
      · rw [if_neg hup] at h ⊢
        rcases hAp : attemptPush env (collect_changed_files env) ("ai/issue-" ++ toString n)
          with ⟨pevs, r⟩
        rw [hAp] at h
        cases r with
        | none =>
          exfalso
          have hseq := (at_ok_seq env (collect_changed_files env)
            ("ai/issue-" ++ toString n) (by rw [hAp])).2
          rw [hAp] at hseq
          dsimp only at h
          simp only [mutsOf_append, mutsOf_cons_mut, mutsOf_cons_call, mutsOf_nil,
            mlog, mstat, List.append_assoc, List.cons_append, List.nil_append] at h
          simp [statusAfter, statusAfter_stream, hseq] at h
        | some e =>
          dsimp only at h ⊢
          simp only [failTail, mutsOf_append, mutsOf_cons_mut, mutsOf_cons_call, mutsOf_nil,
            mlog, mstat, List.append_assoc, List.cons_append, List.nil_append]
          constructor
          · simp [errorAfter, errorAfter_append, errorAfter_stream]
          · simp [lastLogTy, lastLogTy_append]

/-- C4 witness: with neither credential configured the job fails with the
configuration message and performs no publish network call. -/
theorem C4_witness :
    (runJob jobW 0 (mutsOf (run_agent envP 1 "t"))).status = "failed" ∧
    (runJob jobW 0 (mutsOf (run_agent envP 1 "t"))).error =
      some "No GitHub credentials available. Configure Composio GitHub integration or set GITHUB_PAT in .env." ∧
    callsOf (run_agent envP 1 "t") = [] :=
  (C4_publish_policy envP 1 "t" jobW ⟨"/tmp/agent-workspace/r", rfl⟩ rfl rfl).2.2.2 rfl rfl

/-- C9 counterexample: with a non-empty change set and no publish
credential, the run performs exactly one transition into `pushing` but
appends no `status`-kind log entry between that transition and the next
one — contradicting the claim that every transition appends at least one
`status`-kind entry describing the step begun. -/
theorem C9_counterexample :
    countSetStatus "pushing" (mutsOf (run_agent envP 1 "t")) = 1 ∧
    loggedFor "pushing" (mutsOf (run_agent envP 1 "t")) = false := ⟨rfl, rfl⟩

/-- C9 amended: transitions into `cloning` and `running` always append a
`status`-kind entry before the next transition; a transition into `pushing`
does so whenever some publish credential is configured (with neither
credential the job moves to `pushing` and immediately fails without a push
status entry); and whenever the job ends `failed`, a message is recorded in
`error` and the last log entry is of kind `error`. -/
theorem C9_amended (env : Env) (n : Int) (title : String) (j0 : BuildJob) :
    loggedFor "cloning" (mutsOf (run_agent env n title)) = true ∧
    loggedFor "running" (mutsOf (run_agent env n title)) = true ∧
    ((useComposio env || patB env) = true →
      loggedFor "pushing" (mutsOf (run_agent env n title)) = true) ∧
    ((runJob j0 0 (mutsOf (run_agent env n title))).status = "failed" →
      (runJob j0 0 (mutsOf (run_agent env n title))).error.isSome = true ∧
      ((runJob j0 0 (mutsOf (run_agent env n title))).logs.getLast?).map LogEntry.type =
        some "error") :=
  ⟨(run_agent_logged env n title).1, (run_agent_logged env n title).2.1,
   (run_agent_logged env n title).2.2, run_agent_failed_tail env n title j0⟩

/-- C9 witness at a concrete environment (run fails for lack of changes). -/
theorem C9_witness :
    loggedFor "cloning" (mutsOf (run_agent envW 1 "t")) = true ∧
    (runJob jobW 0 (mutsOf (run_agent envW 1 "t"))).error.isSome = true :=
  ⟨(C9_amended envW 1 "t" jobW).1, ((C9_amended envW 1 "t" jobW).2.2.2 rfl).1⟩

end Sprintr
